import Mathlib

/-!
Verification development for the DIP calibration-table generator
(`find_consistent_step` and `generate_dip_table_from_records` in
`streamlit_app.py`).

Embedding conventions:
* Python floats are modelled as rationals (`ℚ`); Python's `round(x, 2)` is
  modelled as exact rational rounding to two decimals (`round2`).
* Python's `int(x)` truncates toward zero (`ratTrunc`).
* A calibration record `{'DIP': d, 'Milk (KG)': q}` is `Rec`.
* The dict `value_map` is modelled by its lookup function: the quantity of
  the last record carrying a given level (Python dict comprehension:
  last write wins).  `sorted_dips = sorted(value_map.keys())` is the
  sorted, duplicate-free list of levels (`sortedList`).
* Division in `find_consistent_step` can raise `ZeroDivisionError` in
  Python; fallible code is embedded in `Option`, with `none` for a raised
  error, and the `Option` is propagated through the whole generator.
* The `while dip <= dip_end` loop (with its `break` once
  `dip > max_actual_dip`) steps `dip` through consecutive integers starting
  at `int(dip_start)`; it is embedded as a map over exactly the integers
  `d` with `int(dip_start) ≤ d`, `d ≤ dip_end` and `d ≤ max_actual_dip`
  (the two exit conditions are antitone in `dip`, so the iteration set is
  this integer interval).  Likewise the inner `for i in range(10)` loops,
  whose `break` condition `dip + i/10 > max_actual_dip` is antitone in `i`,
  are embedded with `takeWhile` (`rowCells`).
-/

namespace DipTable

/-- A calibration record: measured dip level and milk quantity (kg). -/
structure Rec where
  dip : ℚ
  kg : ℚ
deriving DecidableEq, Repr

/-- Output mode of the table: raw kilograms or litres. -/
inductive Mode where
  | kg : Mode
  | litre : Mode
deriving DecidableEq, Repr

/-- Python `round(x, 2)`: rounding to two decimal places, modelled exactly
on rationals. -/
def round2 (x : ℚ) : ℚ := ((round (100 * x) : ℤ) : ℚ) / 100

/-- Python `int(x)`: truncation toward zero. -/
def ratTrunc (q : ℚ) : ℤ := if 0 ≤ q then ⌊q⌋ else ⌈q⌉

/-- `find_consistent_step(dip1, dip2, milk1, milk2)`:
`(milk2 - milk1) / ((dip2 - dip1) * 10)`.  A zero-width interval would
raise `ZeroDivisionError` in Python, embedded as `none`. -/
def find_consistent_step (dip1 dip2 milk1 milk2 : ℚ) : Option ℚ :=
  if dip2 - dip1 = 0 then none
  else some ((milk2 - milk1) / ((dip2 - dip1) * 10))

/-- The kg→litre conversion used in `'litre'` mode:
`round(kg / 1.0285, 2)` (the spec's `UnitConverter.toVolume`). -/
def toVolume (kg : ℚ) : ℚ := round2 (kg / 1.0285)

/-- The lenient parse boundary (`try: float(s) except: 0.0`): a failed
parse is coerced to `0.0`. -/
def parseOrZero (x : Option ℚ) : ℚ := x.getD 0

/-- Lookup in the dict `{d: kg for d, kg in zip(ref_dips, ref_kgs)}`:
the quantity of the last record with the given level. -/
def valueMapKG (records : List Rec) (d : ℚ) : ℚ :=
  ((records.reverse.find? (fun r => decide (r.dip = d))).map Rec.kg).getD 0

/-- The mode-dependent `value_map` lookup (`'kg'` keeps the raw quantity,
`'litre'` applies `round(kg/1.0285, 2)` to each entry). -/
def valueMap : Mode → List Rec → ℚ → ℚ
  | Mode.kg, records, d => valueMapKG records d
  | Mode.litre, records, d => toVolume (valueMapKG records d)

/-- `sorted(value_map.keys())`: the ascending duplicate-free list of
calibrated levels. -/
def sortedList (l : List ℚ) : List ℚ := List.insertionSort (· ≤ ·) l.dedup

/-- Python `max(l)` for the nonempty lists it is applied to. -/
def pyMax : List ℚ → ℚ
  | [] => 0
  | a :: t => t.foldl max a

/-- Python `min(l)` for the nonempty lists it is applied to. -/
def pyMin : List ℚ → ℚ
  | [] => 0
  | a :: t => t.foldl min a

/-- Python list indexing `l[i]` (negative indices count from the end;
out-of-range raises, embedded as `none`). -/
def pyGet (l : List ℚ) (i : ℤ) : Option ℚ :=
  if 0 ≤ i then l.get? i.toNat
  else if (-i).toNat ≤ l.length then l.get? (l.length - (-i).toNat)
  else none

/-- Sequencing of a fallible computation over a list (a Python loop that
may raise at any element). -/
def mapOpt (f : α → Option β) : List α → Option (List β)
  | [] => some []
  | a :: l =>
    match f a, mapOpt f l with
    | some b, some bs => some (b :: bs)
    | _, _ => none

/-- The `special_cases` entries contributed by one consecutive pair of
calibrated levels: when the gap exceeds `1.5` and the whole parts differ,
every integer level in `range(curr_whole + 1, next_whole + 1)` is mapped
to the pair's per-0.1 step. -/
def specialEntries (vm : ℚ → ℚ) (c n : ℚ) : Option (List (ℤ × ℚ)) :=
  if 3/2 < n - c ∧ ratTrunc c ≠ ratTrunc n then
    (find_consistent_step c n (vm c) (vm n)).map (fun st =>
      (List.range (ratTrunc n + 1 - (ratTrunc c + 1)).toNat).map
        (fun (k : ℕ) => (ratTrunc c + 1 + (k : ℤ), st)))
  else some []

/-- The `special_cases` dict, as its insertion-ordered entry list (the
loop over `range(len(sorted_dips) - 1)` walks consecutive pairs). -/
def specialCases (ds : List ℚ) (vm : ℚ → ℚ) : Option (List (ℤ × ℚ)) :=
  (mapOpt (fun p => specialEntries vm p.1 p.2) (ds.zip ds.tail)).map List.flatten

/-- Dict lookup in `special_cases` (last write wins). -/
def specialLookup (sp : List (ℤ × ℚ)) (d : ℤ) : Option ℚ :=
  (sp.reverse.find? (fun e => decide (e.1 = d))).map Prod.snd

/-- The ten-cell inner loop of one row: cell `i` holds `f i`, and the loop
breaks as soon as the actual level `dip + i/10` exceeds the maximum
calibrated level. -/
def rowCells (dip : ℤ) (maxd : ℚ) (f : ℕ → ℚ) : List ℚ :=
  ((List.range 10).takeWhile (fun (i : ℕ) => decide ((dip : ℚ) + (i : ℚ) / 10 ≤ maxd))).map f

/-- One cell of the plain interior-interpolation branch (both lower and
higher calibration points exist, no special case): `s` is the raw
`find_consistent_step` value, `step_size = s * 10`,
`base_value = vl + (dip - ld) * step_size`, and the cell is
`round(base_value + i * step_size / 10, 2)`. -/
def interiorVal (ld vl s : ℚ) (dip : ℤ) (i : ℕ) : ℚ :=
  round2 ((vl + ((dip : ℚ) - ld) * (s * 10)) + (i : ℚ) * ((s * 10) / 10))

/-- One row of the table body (without its leading integer level). -/
def buildRow (ds : List ℚ) (vm : ℚ → ℚ) (sp : List (ℤ × ℚ)) (maxd : ℚ)
    (dip : ℤ) : Option (List ℚ) :=
  if (dip : ℚ) ∈ ds then
    -- exact reference point
    let base := vm (dip : ℚ)
    let higher := ds.filter (fun d => decide ((dip : ℚ) < d))
    let lower := ds.filter (fun d => decide (d < (dip : ℚ)))
    let step? : Option ℚ :=
      if higher ≠ [] then
        (find_consistent_step (dip : ℚ) (pyMin higher) base (vm (pyMin higher))).map (· * 10)
      else if lower ≠ [] then
        (find_consistent_step (pyMax lower) (dip : ℚ) (vm (pyMax lower)) base).map (· * 10)
      else some (5/2)
    step?.map (fun st => rowCells dip maxd (fun i => round2 (base + (i : ℚ) * (st / 10))))
  else
    match specialLookup sp dip with
    | some stepSize =>
      let lower := ds.filter (fun d => decide (d ≤ (dip : ℚ)))
      let higher := ds.filter (fun d => decide ((dip : ℚ) < d))
      let refs := ds.filter (fun d => decide ((dip : ℚ) < d ∧ d < (dip : ℚ) + 1))
      match refs with
      | ref :: _ =>
        -- a reference point splits this row
        let refVal := vm ref
        let refDec : ℤ := ratTrunc ((ref - (dip : ℚ)) * 10)
        let sbb? : Option (ℚ × ℚ) :=
          if lower ≠ [] then
            (find_consistent_step (pyMax lower) ref (vm (pyMax lower)) refVal).map
              (fun sb => (sb, vm (pyMax lower) + ((dip : ℚ) - pyMax lower) * sb * 10))
          else some (stepSize, refVal - (ref - (dip : ℚ)) * stepSize * 10)
        sbb?.bind (fun sbb =>
          let higherAfter := ds.filter (fun d => decide (ref < d))
          let sa? : Option ℚ :=
            if higherAfter ≠ [] then
              find_consistent_step ref (pyMin higherAfter) refVal (vm (pyMin higherAfter))
            else some sbb.1
          sa?.map (fun sa =>
            rowCells dip maxd (fun i =>
              if (i : ℤ) < refDec then round2 (sbb.2 + (i : ℚ) * sbb.1)
              else round2 (refVal + ((dip : ℚ) + (i : ℚ) / 10 - ref) * sa * 10))))
      | [] =>
        -- no reference point inside the row: propagate the special step
        let base :=
          if lower ≠ [] then vm (pyMax lower) + ((dip : ℚ) - pyMax lower) * stepSize * 10
          else if higher ≠ [] then vm (pyMin higher) - (pyMin higher - (dip : ℚ)) * stepSize * 10
          else 0
        some (rowCells dip maxd (fun i => round2 (base + (i : ℚ) * stepSize)))
    | none =>
      let lower := ds.filter (fun d => decide (d ≤ (dip : ℚ)))
      let higher := ds.filter (fun d => decide ((dip : ℚ) < d))
      if lower ≠ [] ∧ higher ≠ [] then
        -- interior interpolation between nearest lower and higher points
        (find_consistent_step (pyMax lower) (pyMin higher) (vm (pyMax lower)) (vm (pyMin higher))).map
          (fun s => rowCells dip maxd (interiorVal (pyMax lower) (vm (pyMax lower)) s dip))
      else if lower ≠ [] then
        if 2 ≤ lower.length then
          -- extrapolate above: slope of the last interval
          (pyGet ds ((ds.indexOf (pyMax lower) : ℤ) - 1)).bind (fun sl =>
            (find_consistent_step sl (pyMax lower) (vm sl) (vm (pyMax lower))).map
              (fun s => rowCells dip maxd (fun i =>
                round2 ((vm (pyMax lower) + ((dip : ℚ) - pyMax lower) * (s * 10)) + (i : ℚ) * ((s * 10) / 10)))))
        else some (rowCells dip maxd (fun i => round2 (vm (pyMax lower) + (i : ℚ) * ((5/2) / 10))))
      else if higher ≠ [] then
        if 2 ≤ higher.length then
          -- extrapolate below: slope of the first interval
          (pyGet ds ((ds.indexOf (pyMin higher) : ℤ) + 1)).bind (fun snd =>
            (find_consistent_step (pyMin higher) snd (vm (pyMin higher)) (vm snd)).map
              (fun s => rowCells dip maxd (fun i =>
                round2 ((vm (pyMin higher) - (pyMin higher - (dip : ℚ)) * (s * 10)) + (i : ℚ) * ((s * 10) / 10)))))
        else some (rowCells dip maxd (fun i => round2 (vm (pyMin higher) + (i : ℚ) * ((5/2) / 10))))
      else some (rowCells dip maxd (fun i => round2 (0 + (i : ℚ) * ((5/2) / 10))))

/-- The fixed header row `['DIP', '0', ..., '9']`. -/
def HEADERS : List String :=
  ["DIP", "0", "1", "2", "3", "4", "5", "6", "7", "8", "9"]

/-- `dip = int(dip_start)` with `dip_start` defaulting to
`int(min(ref_dips))`. -/
def tableStart (refDips : List ℚ) (s? : Option ℚ) : ℤ :=
  ratTrunc (match s? with
    | none => ((ratTrunc (pyMin refDips) : ℤ) : ℚ)
    | some v => v)

/-- `dip_end`, defaulting to `max(ref_dips)`. -/
def tableEnd (refDips : List ℚ) (e? : Option ℚ) : ℚ :=
  match e? with
  | none => pyMax refDips
  | some v => v

/-- The number of iterations of the `while` loop: the integers `d` with
`tableStart ≤ d`, `d ≤ dip_end` and `d ≤ max_actual_dip`. -/
def tableRowCount (refDips : List ℚ) (s? e? : Option ℚ) : ℕ :=
  (⌊min (tableEnd refDips e?) (pyMax refDips)⌋ - tableStart refDips s? + 1).toNat

/-- The table generator, parametrised by the level list and the value-map
lookup (everything after `value_map` is built depends on the records only
through these). -/
def generateFrom (refDips : List ℚ) (vm : ℚ → ℚ) (s? e? : Option ℚ) :
    Option (List String × List (ℤ × List ℚ)) :=
  if refDips = [] then some (HEADERS, [])
  else
    let ds := sortedList refDips
    let maxd := pyMax refDips
    let d0 := tableStart refDips s?
    (specialCases ds vm).bind (fun sp =>
      (mapOpt (fun (k : ℕ) => (buildRow ds vm sp maxd (d0 + (k : ℤ))).map
          (fun cs => (d0 + (k : ℤ), cs)))
        (List.range (tableRowCount refDips s? e?))).map
        (fun rows => (HEADERS, rows)))

/-- `generate_dip_table_from_records(records, dip_start, dip_end, mode)`.
A row `[dip, v0, ..., vk]` is embedded as the pair `(dip, [v0, ..., vk])`. -/
def generate (records : List Rec) (s? e? : Option ℚ) (m : Mode) :
    Option (List String × List (ℤ × List ℚ)) :=
  generateFrom (records.map Rec.dip) (valueMap m records) s? e?

/-- The spec's `avg` for the slope clamp (claim C2), written from the
claim's words for comparison with the code: 10 times the arithmetic mean
of the per-0.1-level rates of all consecutive calibration pairs. -/
def specAvgRate (records : List Rec) (m : Mode) : ℚ :=
  let ds := sortedList (records.map Rec.dip)
  let rates := (ds.zip ds.tail).map
    (fun p => (valueMap m records p.2 - valueMap m records p.1) / ((p.2 - p.1) * 10))
  10 * (rates.sum / (rates.length : ℚ))

/-! ### Basic lemmas about the embedding's building blocks -/

lemma round2_mono {x y : ℚ} (h : x ≤ y) : round2 x ≤ round2 y := by
  have h1 : round (100 * x) ≤ round (100 * y) := by
    rw [round_eq, round_eq]
    exact Int.floor_mono (by linarith)
  have h2 : ((round (100 * x) : ℤ) : ℚ) ≤ ((round (100 * y) : ℤ) : ℚ) := by
    exact_mod_cast h1
  unfold round2
  exact (div_le_div_iff_of_pos_right (by norm_num : (0:ℚ) < 100)).mpr h2

lemma ratTrunc_intCast (n : ℤ) : ratTrunc (n : ℚ) = n := by
  unfold ratTrunc
  split
  · exact Int.floor_intCast n
  · exact Int.ceil_intCast n

lemma ratTrunc_le_of_le_intCast {q : ℚ} {n : ℤ} (h : q ≤ (n : ℚ)) : ratTrunc q ≤ n := by
  unfold ratTrunc
  split
  · have h2 := Int.floor_mono h
    rwa [Int.floor_intCast] at h2
  · exact Int.ceil_le.mpr h

lemma ratTrunc_mono {p q : ℚ} (h : p ≤ q) : ratTrunc p ≤ ratTrunc q := by
  unfold ratTrunc
  split <;> split
  · exact Int.floor_mono h
  · exact absurd (by linarith : (0:ℚ) ≤ q) (by assumption)
  · have h1 : ⌈p⌉ ≤ 0 := Int.ceil_le.mpr (by push_cast; linarith [not_le.mp (by assumption : ¬ 0 ≤ p)])
    have h2 : 0 ≤ ⌊q⌋ := Int.le_floor.mpr (by push_cast; linarith)
    omega
  · exact Int.ceil_mono h

lemma ratTrunc_cast_le_self {q : ℚ} (h : 0 ≤ q) : (ratTrunc q : ℚ) ≤ q := by
  unfold ratTrunc
  rw [if_pos h]
  exact Int.floor_le q

lemma ratTrunc_nonneg {q : ℚ} (h : 0 ≤ q) : 0 ≤ ratTrunc q := by
  unfold ratTrunc
  rw [if_pos h]
  exact Int.floor_nonneg.mpr h

lemma ratTrunc_lt_of_lt {q : ℚ} {n : ℤ} (h0 : 0 ≤ q) (h : q < (n : ℚ)) : ratTrunc q < n := by
  unfold ratTrunc
  rw [if_pos h0]
  exact Int.floor_lt.mpr h

/-! Facts about `pyMin` and `pyMax` on nonempty lists. -/

lemma le_foldl_max : ∀ (t : List ℚ) (a : ℚ), a ≤ t.foldl max a := by
  intro t
  induction t with
  | nil => intro a; exact le_refl a
  | cons b t ih =>
    intro a
    exact le_trans (le_max_left a b) (ih (max a b))

lemma mem_le_foldl_max : ∀ (t : List ℚ) (a x : ℚ), x ∈ t → x ≤ t.foldl max a := by
  intro t
  induction t with
  | nil => intro a x hx; cases hx
  | cons b t ih =>
    intro a x hx
    rcases List.mem_cons.mp hx with h | h
    · subst h
      exact le_trans (le_max_right a x) (le_foldl_max t (max a x))
    · exact ih (max a b) x h

lemma foldl_max_mem : ∀ (t : List ℚ) (a : ℚ), t.foldl max a = a ∨ t.foldl max a ∈ t := by
  intro t
  induction t with
  | nil => intro a; exact Or.inl rfl
  | cons b t ih =>
    intro a
    rcases ih (max a b) with h | h
    · rcases max_choice a b with h2 | h2
      · exact Or.inl (by rw [List.foldl_cons, h, h2])
      · exact Or.inr (by rw [List.foldl_cons, h, h2]; exact List.mem_cons_self b t)
    · exact Or.inr (List.mem_cons_of_mem b h)

lemma le_pyMax {l : List ℚ} {x : ℚ} (hx : x ∈ l) : x ≤ pyMax l := by
  cases l with
  | nil => cases hx
  | cons a t =>
    rcases List.mem_cons.mp hx with h | h
    · subst h; exact le_foldl_max t x
    · exact mem_le_foldl_max t a x h

lemma pyMax_mem {l : List ℚ} (h : l ≠ []) : pyMax l ∈ l := by
  cases l with
  | nil => exact absurd rfl h
  | cons a t =>
    rcases foldl_max_mem t a with h2 | h2
    · show t.foldl max a ∈ a :: t
      rw [h2]
      exact List.mem_cons_self a t
    · exact List.mem_cons_of_mem a h2

lemma foldl_min_le : ∀ (t : List ℚ) (a : ℚ), t.foldl min a ≤ a := by
  intro t
  induction t with
  | nil => intro a; exact le_refl a
  | cons b t ih =>
    intro a
    exact le_trans (ih (min a b)) (min_le_left a b)

lemma foldl_min_le_mem : ∀ (t : List ℚ) (a x : ℚ), x ∈ t → t.foldl min a ≤ x := by
  intro t
  induction t with
  | nil => intro a x hx; cases hx
  | cons b t ih =>
    intro a x hx
    rcases List.mem_cons.mp hx with h | h
    · subst h
      exact le_trans (foldl_min_le t (min a x)) (min_le_right a x)
    · exact ih (min a b) x h

lemma foldl_min_mem : ∀ (t : List ℚ) (a : ℚ), t.foldl min a = a ∨ t.foldl min a ∈ t := by
  intro t
  induction t with
  | nil => intro a; exact Or.inl rfl
  | cons b t ih =>
    intro a
    rcases ih (min a b) with h | h
    · rcases min_choice a b with h2 | h2
      · exact Or.inl (by rw [List.foldl_cons, h, h2])
      · exact Or.inr (by rw [List.foldl_cons, h, h2]; exact List.mem_cons_self b t)
    · exact Or.inr (List.mem_cons_of_mem b h)

lemma pyMin_le {l : List ℚ} {x : ℚ} (hx : x ∈ l) : pyMin l ≤ x := by
  cases l with
  | nil => cases hx
  | cons a t =>
    rcases List.mem_cons.mp hx with h | h
    · subst h; exact foldl_min_le t x
    · exact foldl_min_le_mem t a x h

lemma pyMin_mem {l : List ℚ} (h : l ≠ []) : pyMin l ∈ l := by
  cases l with
  | nil => exact absurd rfl h
  | cons a t =>
    rcases foldl_min_mem t a with h2 | h2
    · show t.foldl min a ∈ a :: t
      rw [h2]
      exact List.mem_cons_self a t
    · exact List.mem_cons_of_mem a h2

/-! Facts about `mapOpt`. -/

lemma mapOpt_isSome {f : α → Option β} :
    ∀ {l : List α}, (∀ a ∈ l, (f a).isSome) → (mapOpt f l).isSome := by
  intro l
  induction l with
  | nil => intro _; rfl
  | cons a t ih =>
    intro h
    have ha := h a (List.mem_cons_self a t)
    have ht := ih (fun x hx => h x (List.mem_cons_of_mem a hx))
    rcases Option.isSome_iff_exists.mp ha with ⟨b, hb⟩
    rcases Option.isSome_iff_exists.mp ht with ⟨bs, hbs⟩
    simp [mapOpt, hb, hbs]

lemma mapOpt_length {f : α → Option β} :
    ∀ {l : List α} {res : List β}, mapOpt f l = some res → res.length = l.length := by
  intro l
  induction l with
  | nil => intro res h; simp [mapOpt] at h; simp [← h]
  | cons a t ih =>
    intro res h
    cases hfa : f a with
    | none => simp [mapOpt, hfa] at h
    | some b =>
      cases hml : mapOpt f t with
      | none => simp [mapOpt, hfa, hml] at h
      | some bs =>
        simp [mapOpt, hfa, hml] at h
        subst h
        simp [ih hml]

lemma mapOpt_get? {f : α → Option β} :
    ∀ {l : List α} {res : List β}, mapOpt f l = some res →
      ∀ {k : ℕ} {a : α}, l.get? k = some a → res.get? k = f a := by
  intro l
  induction l with
  | nil => intro res _ k a h; simp at h
  | cons x t ih =>
    intro res h k a hk
    cases hfa : f x with
    | none => simp [mapOpt, hfa] at h
    | some b =>
      cases hml : mapOpt f t with
      | none => simp [mapOpt, hfa, hml] at h
      | some bs =>
        simp [mapOpt, hfa, hml] at h
        subst h
        cases k with
        | zero =>
          rw [List.get?_cons_zero] at hk
          injection hk with hk
          subst hk
          rw [List.get?_cons_zero, hfa]
        | succ k =>
          rw [List.get?_cons_succ] at hk
          rw [List.get?_cons_succ]
          exact ih hml hk

lemma mapOpt_mem {f : α → Option β} :
    ∀ {l : List α} {res : List β}, mapOpt f l = some res →
      ∀ {b : β}, b ∈ res → ∃ a ∈ l, f a = some b := by
  intro l
  induction l with
  | nil =>
    intro res h b hb
    simp [mapOpt] at h
    subst h
    cases hb
  | cons x t ih =>
    intro res h b hb
    cases hfa : f x with
    | none => simp [mapOpt, hfa] at h
    | some c =>
      cases hml : mapOpt f t with
      | none => simp [mapOpt, hfa, hml] at h
      | some bs =>
        simp [mapOpt, hfa, hml] at h
        subst h
        rcases List.mem_cons.mp hb with h2 | h2
        · exact ⟨x, List.mem_cons_self x t, by rw [hfa, h2]⟩
        · rcases ih hml h2 with ⟨a, ha, hfa2⟩
          exact ⟨a, List.mem_cons_of_mem x ha, hfa2⟩

/-! Facts about `sortedList`. -/

lemma sortedList_sorted (l : List ℚ) : List.Sorted (· ≤ ·) (sortedList l) :=
  List.sorted_insertionSort _ _

lemma sortedList_nodup (l : List ℚ) : (sortedList l).Nodup :=
  ((List.perm_insertionSort (· ≤ ·) l.dedup).nodup_iff).mpr l.nodup_dedup

lemma mem_sortedList {l : List ℚ} {x : ℚ} : x ∈ sortedList l ↔ x ∈ l := by
  rw [sortedList, (List.perm_insertionSort (· ≤ ·) l.dedup).mem_iff, List.mem_dedup]

lemma sortedList_pairwise (l : List ℚ) : (sortedList l).Pairwise (· < ·) := by
  have hs := sortedList_sorted l
  have hn := sortedList_nodup l
  exact (hs.and hn).imp (fun h => lt_of_le_of_ne h.1 h.2)

lemma sortedList_eq_nil_iff {l : List ℚ} : sortedList l = [] ↔ l = [] := by
  constructor
  · intro h
    rw [List.eq_nil_iff_forall_not_mem]
    intro x hx
    exact absurd (mem_sortedList.mpr hx) (by rw [h]; exact List.not_mem_nil x)
  · intro h
    subst h
    rfl

/-! Facts about `rowCells` and Python list indexing. -/

lemma takeWhile_map_get? {α β : Type} {p : α → Bool} (f : α → β) :
    ∀ (l : List α) (k : ℕ) (x : α), l.get? k = some x →
      (∀ i y, i ≤ k → l.get? i = some y → p y = true) →
      ((l.takeWhile p).map f).get? k = some (f x) := by
  intro l
  induction l with
  | nil => intro k x hx _; simp at hx
  | cons a t ih =>
    intro k x hx h
    have pa : p a = true := h 0 a (Nat.zero_le k) List.get?_cons_zero
    rw [List.takeWhile_cons_of_pos pa]
    cases k with
    | zero =>
      rw [List.get?_cons_zero] at hx
      injection hx with hx
      subst hx
      simp
    | succ k =>
      rw [List.get?_cons_succ] at hx
      rw [List.map_cons, List.get?_cons_succ]
      exact ih k x hx
        (fun i y hi hy => h (i+1) y (Nat.succ_le_succ hi) (by rw [List.get?_cons_succ]; exact hy))

lemma rowCells_get? {dip : ℤ} {maxd : ℚ} (f : ℕ → ℚ) {k : ℕ} (hk : k < 10)
    (h : ∀ i : ℕ, i ≤ k → (dip : ℚ) + (i : ℚ) / 10 ≤ maxd) :
    (rowCells dip maxd f).get? k = some (f k) := by
  unfold rowCells
  apply takeWhile_map_get?
  · exact List.get?_range hk
  · intro i y hi hy
    rw [List.get?_range (lt_of_le_of_lt hi hk)] at hy
    injection hy with hy
    subst hy
    exact decide_eq_true (h i hi)

lemma takeWhile_range_ten {p : ℕ → Bool} :
    ∃ m, m ≤ 10 ∧ (List.range 10).takeWhile p = List.range m ∧ ∀ j, j < m → p j = true := by
  have hpre : (List.range 10).takeWhile p <+: List.range 10 := List.takeWhile_prefix p
  have hlen : ((List.range 10).takeWhile p).length ≤ 10 := by
    simpa using hpre.length_le
  have heq : (List.range 10).takeWhile p =
      List.range (((List.range 10).takeWhile p).length) := by
    conv_lhs => rw [List.prefix_iff_eq_take.mp hpre]
    rw [List.take_range]
    congr 1
    exact Nat.min_eq_left hlen
  refine ⟨((List.range 10).takeWhile p).length, hlen, heq, ?_⟩
  intro j hj
  have hjm : j ∈ (List.range 10).takeWhile p := by
    rw [heq]
    exact List.mem_range.mpr hj
  exact List.mem_takeWhile_imp hjm

lemma rowCells_shape (dip : ℤ) (maxd : ℚ) (f : ℕ → ℚ) :
    ∃ m, m ≤ 10 ∧ rowCells dip maxd f = (List.range m).map f ∧
      ∀ j, j < m → (dip : ℚ) + (j : ℚ) / 10 ≤ maxd := by
  rcases takeWhile_range_ten
      (p := fun (i : ℕ) => decide ((dip : ℚ) + (i : ℚ) / 10 ≤ maxd)) with ⟨m, hm, heq, hcond⟩
  refine ⟨m, hm, ?_, ?_⟩
  · unfold rowCells
    rw [heq]
  · intro j hj
    exact of_decide_eq_true (hcond j hj)

lemma pyGet_coe_nat (l : List ℚ) (n : ℕ) : pyGet l (n : ℤ) = l.get? n := by
  unfold pyGet
  rw [if_pos (Int.natCast_nonneg n)]
  simp

/-! Consecutive pairs of a strictly sorted list. -/

lemma pairwise_zip_tail : ∀ {ds : List ℚ}, ds.Pairwise (· < ·) →
    ∀ p ∈ ds.zip ds.tail, p.1 < p.2 := by
  intro ds
  induction ds with
  | nil => intro _ p hp; simp at hp
  | cons a t ih =>
    intro h p hp
    cases t with
    | nil => simp at hp
    | cons b u =>
      rw [List.tail_cons, List.zip_cons_cons] at hp
      rcases List.mem_cons.mp hp with h2 | h2
      · subst h2
        exact (List.pairwise_cons.mp h).1 b (List.mem_cons_self b u)
      · exact ih (List.pairwise_cons.mp h).2 p h2

lemma sorted_get?_zero_le {ds : List ℚ} (hs : List.Sorted (· ≤ ·) ds) {a : ℚ}
    (h : ds.get? 0 = some a) : ∀ x ∈ ds, a ≤ x := by
  cases ds with
  | nil => simp at h
  | cons b t =>
    rw [List.get?_cons_zero] at h
    injection h with h
    subst h
    intro x hx
    rcases List.mem_cons.mp hx with h2 | h2
    · exact le_of_eq h2.symm
    · exact (List.sorted_cons.mp hs).1 x h2

lemma pyMin_eq_of_get?_zero {l : List ℚ} {a : ℚ} (h : (sortedList l).get? 0 = some a) :
    pyMin l = a := by
  have ha : a ∈ l := mem_sortedList.mp (List.get?_mem h)
  have hne : l ≠ [] := List.ne_nil_of_mem ha
  have h1 : pyMin l ≤ a := pyMin_le ha
  have h2 : a ≤ pyMin l :=
    sorted_get?_zero_le (sortedList_sorted l) h (pyMin l) (mem_sortedList.mpr (pyMin_mem hne))
  exact le_antisymm h1 h2

/-! Distinctness facts used at every `find_consistent_step` call site. -/

lemma find_consistent_step_isSome {d1 d2 m1 m2 : ℚ} (h : d1 ≠ d2) :
    find_consistent_step d1 d2 m1 m2 = some ((m2 - m1) / ((d2 - d1) * 10)) := by
  unfold find_consistent_step
  rw [if_neg]
  intro h2
  exact h (sub_eq_zero.mp h2).symm

lemma pyMin_filter_spec {ds : List ℚ} {p : ℚ → Bool} (h : ds.filter p ≠ []) :
    pyMin (ds.filter p) ∈ ds ∧ p (pyMin (ds.filter p)) = true :=
  ⟨(List.mem_filter.mp (pyMin_mem h)).1, (List.mem_filter.mp (pyMin_mem h)).2⟩

lemma pyMax_filter_spec {ds : List ℚ} {p : ℚ → Bool} (h : ds.filter p ≠ []) :
    pyMax (ds.filter p) ∈ ds ∧ p (pyMax (ds.filter p)) = true :=
  ⟨(List.mem_filter.mp (pyMax_mem h)).1, (List.mem_filter.mp (pyMax_mem h)).2⟩

lemma indexOf_lt_indexOf {ds : List ℚ} (hp : ds.Pairwise (· < ·)) {x y : ℚ}
    (hx : x ∈ ds) (hy : y ∈ ds) (hlt : x < y) : ds.indexOf x < ds.indexOf y := by
  have hix : ds.indexOf x < ds.length := List.indexOf_lt_length.mpr hx
  have hiy : ds.indexOf y < ds.length := List.indexOf_lt_length.mpr hy
  have hgx : ds.get ⟨ds.indexOf x, hix⟩ = x := List.indexOf_get hix
  have hgy : ds.get ⟨ds.indexOf y, hiy⟩ = y := List.indexOf_get hiy
  rcases lt_trichotomy (ds.indexOf x) (ds.indexOf y) with h | h | h
  · exact h
  · exfalso
    have h2 : ds.get ⟨ds.indexOf x, hix⟩ = ds.get ⟨ds.indexOf y, hiy⟩ :=
      congrArg ds.get (Fin.ext h)
    rw [hgx, hgy] at h2
    exact absurd h2 (ne_of_lt hlt)
  · exfalso
    have h2 := List.pairwise_iff_get.mp hp ⟨ds.indexOf y, hiy⟩ ⟨ds.indexOf x, hix⟩ h
    rw [hgx, hgy] at h2
    exact absurd hlt (not_lt.mpr (le_of_lt h2))

lemma pyGet_indexOf_pred {ds : List ℚ} (hp : ds.Pairwise (· < ·)) {x y : ℚ}
    (hx : x ∈ ds) (hy : y ∈ ds) (hlt : x < y) :
    ∃ z, pyGet ds ((ds.indexOf y : ℤ) - 1) = some z ∧ z < y := by
  have hiy : ds.indexOf y < ds.length := List.indexOf_lt_length.mpr hy
  have hgy : ds.get ⟨ds.indexOf y, hiy⟩ = y := List.indexOf_get hiy
  have hlt2 : ds.indexOf x < ds.indexOf y := indexOf_lt_indexOf hp hx hy hlt
  have hcast : ((ds.indexOf y : ℤ) - 1) = ((ds.indexOf y - 1 : ℕ) : ℤ) := by omega
  rw [hcast, pyGet_coe_nat]
  have h2 : ds.indexOf y - 1 < ds.length := by omega
  refine ⟨ds.get ⟨ds.indexOf y - 1, h2⟩, List.get?_eq_get h2, ?_⟩
  have h3 := List.pairwise_iff_get.mp hp ⟨ds.indexOf y - 1, h2⟩ ⟨ds.indexOf y, hiy⟩ (by
    show ds.indexOf y - 1 < ds.indexOf y
    omega)
  rwa [hgy] at h3

lemma pyGet_indexOf_succ {ds : List ℚ} (hp : ds.Pairwise (· < ·)) {x y : ℚ}
    (hx : x ∈ ds) (hy : y ∈ ds) (hlt : x < y) :
    ∃ z, pyGet ds ((ds.indexOf x : ℤ) + 1) = some z ∧ x < z := by
  have hix : ds.indexOf x < ds.length := List.indexOf_lt_length.mpr hx
  have hgx : ds.get ⟨ds.indexOf x, hix⟩ = x := List.indexOf_get hix
  have hlt2 : ds.indexOf x < ds.indexOf y := indexOf_lt_indexOf hp hx hy hlt
  have hiy : ds.indexOf y < ds.length := List.indexOf_lt_length.mpr hy
  have hcast : ((ds.indexOf x : ℤ) + 1) = ((ds.indexOf x + 1 : ℕ) : ℤ) := by omega
  rw [hcast, pyGet_coe_nat]
  have h2 : ds.indexOf x + 1 < ds.length := by omega
  refine ⟨ds.get ⟨ds.indexOf x + 1, h2⟩, List.get?_eq_get h2, ?_⟩
  have h3 := List.pairwise_iff_get.mp hp ⟨ds.indexOf x, hix⟩ ⟨ds.indexOf x + 1, h2⟩ (by
    show ds.indexOf x < ds.indexOf x + 1
    omega)
  rwa [hgx] at h3

lemma exists_lt_pyMax {l : List ℚ} (h2 : 2 ≤ l.length) (hn : l.Nodup) :
    ∃ x ∈ l, x < pyMax l := by
  cases l with
  | nil => simp at h2
  | cons a t =>
    cases t with
    | nil => simp at h2
    | cons b u =>
      have hab : a ≠ b := by
        have := (List.nodup_cons.mp hn).1
        intro hEq
        exact this (hEq ▸ List.mem_cons_self b u)
      by_cases hA : a = pyMax (a :: b :: u)
      · refine ⟨b, List.mem_cons_of_mem a (List.mem_cons_self b u), ?_⟩
        refine lt_of_le_of_ne (le_pyMax (List.mem_cons_of_mem a (List.mem_cons_self b u))) ?_
        intro hEq
        exact hab (hA.trans hEq.symm)
      · exact ⟨a, List.mem_cons_self a _, lt_of_le_of_ne (le_pyMax (List.mem_cons_self a _)) hA⟩

lemma exists_pyMin_lt {l : List ℚ} (h2 : 2 ≤ l.length) (hn : l.Nodup) :
    ∃ x ∈ l, pyMin l < x := by
  cases l with
  | nil => simp at h2
  | cons a t =>
    cases t with
    | nil => simp at h2
    | cons b u =>
      have hab : a ≠ b := by
        have := (List.nodup_cons.mp hn).1
        intro hEq
        exact this (hEq ▸ List.mem_cons_self b u)
      by_cases hA : a = pyMin (a :: b :: u)
      · refine ⟨b, List.mem_cons_of_mem a (List.mem_cons_self b u), ?_⟩
        refine lt_of_le_of_ne (pyMin_le (List.mem_cons_of_mem a (List.mem_cons_self b u))) ?_
        intro hEq
        exact hab (hA.trans hEq)
      · exact ⟨a, List.mem_cons_self a _,
          lt_of_le_of_ne (pyMin_le (List.mem_cons_self a _)) (fun hEq => hA hEq.symm)⟩

/-! Totality of `specialCases`. -/

lemma specialEntries_isSome {vm : ℚ → ℚ} {c n : ℚ} (h : c < n) :
    ∃ e, specialEntries vm c n = some e := by
  unfold specialEntries
  split_ifs with hc
  · rw [find_consistent_step_isSome (ne_of_lt h)]
    exact ⟨_, rfl⟩
  · exact ⟨[], rfl⟩

lemma specialCases_isSome {ds : List ℚ} {vm : ℚ → ℚ} (hp : ds.Pairwise (· < ·)) :
    ∃ sp, specialCases ds vm = some sp := by
  unfold specialCases
  have h : ∀ p ∈ ds.zip ds.tail, (specialEntries vm p.1 p.2).isSome := by
    intro p hp2
    rcases @specialEntries_isSome vm p.1 p.2 (pairwise_zip_tail hp p hp2) with ⟨e, he⟩
    rw [he]
    rfl
  rcases Option.isSome_iff_exists.mp (mapOpt_isSome h) with ⟨res, hres⟩
  rw [hres]
  exact ⟨res.flatten, rfl⟩

lemma specialCases_keys {ds : List ℚ} {vm : ℚ → ℚ} {sp : List (ℤ × ℚ)} {q : ℚ}
    (h : specialCases ds vm = some sp) (hq : ∀ d ∈ ds, q ≤ d) :
    ∀ e ∈ sp, ratTrunc q < e.1 := by
  intro e he
  unfold specialCases at h
  cases hm : mapOpt (fun p => specialEntries vm p.1 p.2) (ds.zip ds.tail) with
  | none => rw [hm] at h; simp at h
  | some chunks =>
    rw [hm] at h
    simp only [Option.map_some'] at h
    injection h with h
    rw [← h] at he
    rcases List.mem_flatten.mp he with ⟨chunk, hchunk, hechunk⟩
    rcases mapOpt_mem hm hchunk with ⟨p, hpmem, hpe⟩
    have hpc : p.1 ∈ ds := (List.of_mem_zip hpmem).1
    unfold specialEntries at hpe
    split_ifs at hpe with hcond
    · have hlt : p.1 < p.2 := by linarith [hcond.1]
      rw [find_consistent_step_isSome (ne_of_lt hlt)] at hpe
      simp only [Option.map_some'] at hpe
      injection hpe with hpe
      rw [← hpe] at hechunk
      rcases List.mem_map.mp hechunk with ⟨k, -, hk⟩
      have htr : ratTrunc q ≤ ratTrunc p.1 := ratTrunc_mono (hq p.1 hpc)
      have he1 : e.1 = ratTrunc p.1 + 1 + (k : ℤ) := by rw [← hk]
      have hk0 : (0 : ℤ) ≤ (k : ℤ) := Int.natCast_nonneg k
      omega
    · injection hpe with hpe
      rw [← hpe] at hechunk
      cases hechunk

lemma specialLookup_eq_none {sp : List (ℤ × ℚ)} {d : ℤ} (h : ∀ e ∈ sp, d < e.1) :
    specialLookup sp d = none := by
  unfold specialLookup
  rw [List.find?_eq_none.mpr]
  · rfl
  · intro x hx
    simp only [decide_eq_true_eq]
    intro hEq
    have := h x (List.mem_reverse.mp hx)
    omega

/-- Every branch of `buildRow` produces a value: each of its
`find_consistent_step` calls receives two distinct levels, and each Python
list access is in range. -/
lemma buildRow_isSome (ds : List ℚ) (vm : ℚ → ℚ) (sp : List (ℤ × ℚ)) (maxd : ℚ)
    (dip : ℤ) (hp : ds.Pairwise (· < ·)) :
    (buildRow ds vm sp maxd dip).isSome = true := by
  have hnd : ds.Nodup := hp.imp ne_of_lt
  unfold buildRow
  dsimp only
  split
  · -- exact reference point
    split
    · next hh =>
      have hlt : (dip : ℚ) < pyMin (ds.filter (fun d => decide ((dip : ℚ) < d))) :=
        of_decide_eq_true (pyMin_filter_spec hh).2
      rw [find_consistent_step_isSome (ne_of_lt hlt)]
      rfl
    · split
      · next hl =>
        have hlt : pyMax (ds.filter (fun d => decide (d < (dip : ℚ)))) < (dip : ℚ) :=
          of_decide_eq_true (pyMax_filter_spec hl).2
        rw [find_consistent_step_isSome (ne_of_lt hlt)]
        rfl
      · rfl
  · -- not an exact reference point
    split
    · -- a special-case row
      split
      · -- a reference point splits the row
        next ref tail hrefs =>
        have hrefmem : ref ∈ ds.filter (fun d => decide ((dip : ℚ) < d ∧ d < (dip : ℚ) + 1)) := by
          rw [hrefs]
          exact List.mem_cons_self _ _
        have href : (dip : ℚ) < ref ∧ ref < (dip : ℚ) + 1 :=
          of_decide_eq_true (List.mem_filter.mp hrefmem).2
        split
        · next hl =>
          have hle : pyMax (ds.filter (fun d => decide (d ≤ (dip : ℚ)))) ≤ (dip : ℚ) :=
            of_decide_eq_true (pyMax_filter_spec hl).2
          rw [find_consistent_step_isSome (ne_of_lt (lt_of_le_of_lt hle href.1))]
          simp only [Option.map_some', Option.some_bind]
          split
          · next hha =>
            have hlt2 : ref < pyMin (ds.filter (fun d => decide (ref < d))) :=
              of_decide_eq_true (pyMin_filter_spec hha).2
            rw [find_consistent_step_isSome (ne_of_lt hlt2)]
            rfl
          · rfl
        · simp only [Option.some_bind]
          split
          · next hha =>
            have hlt2 : ref < pyMin (ds.filter (fun d => decide (ref < d))) :=
              of_decide_eq_true (pyMin_filter_spec hha).2
            rw [find_consistent_step_isSome (ne_of_lt hlt2)]
            rfl
          · rfl
      · rfl
    · -- ordinary interpolation / extrapolation row
      split
      · next hboth =>
        have hle : pyMax (ds.filter (fun d => decide (d ≤ (dip : ℚ)))) ≤ (dip : ℚ) :=
          of_decide_eq_true (pyMax_filter_spec hboth.1).2
        have hlt : (dip : ℚ) < pyMin (ds.filter (fun d => decide ((dip : ℚ) < d))) :=
          of_decide_eq_true (pyMin_filter_spec hboth.2).2
        rw [find_consistent_step_isSome (ne_of_lt (lt_of_le_of_lt hle hlt))]
        rfl
      · split
        · next hl =>
          split
          · next h2 =>
            have hndl : (ds.filter (fun d => decide (d ≤ (dip : ℚ)))).Nodup := hnd.filter _
            obtain ⟨x, hxmem, hxlt⟩ := exists_lt_pyMax h2 hndl
            have hxds : x ∈ ds := (List.mem_filter.mp hxmem).1
            have hpds : pyMax (ds.filter (fun d => decide (d ≤ (dip : ℚ)))) ∈ ds :=
              (pyMax_filter_spec hl).1
            obtain ⟨z, hz, hzlt⟩ := pyGet_indexOf_pred hp hxds hpds hxlt
            rw [hz]
            simp only [Option.some_bind]
            rw [find_consistent_step_isSome (ne_of_lt hzlt)]
            rfl
          · rfl
        · split
          · next hh =>
            split
            · next h2 =>
              have hndh : (ds.filter (fun d => decide ((dip : ℚ) < d))).Nodup := hnd.filter _
              obtain ⟨y, hymem, hylt⟩ := exists_pyMin_lt h2 hndh
              have hyds : y ∈ ds := (List.mem_filter.mp hymem).1
              have hpds : pyMin (ds.filter (fun d => decide ((dip : ℚ) < d))) ∈ ds :=
                (pyMin_filter_spec hh).1
              obtain ⟨z, hz, hzlt⟩ := pyGet_indexOf_succ hp hpds hyds hylt
              rw [hz]
              simp only [Option.some_bind]
              rw [find_consistent_step_isSome (ne_of_lt hzlt)]
              rfl
            · rfl
          · rfl

/-- Whatever branch produced it, a row is a `rowCells` application: its
cells stop at the maximum calibrated level. -/
lemma buildRow_shape {ds : List ℚ} {vm : ℚ → ℚ} {sp : List (ℤ × ℚ)} {maxd : ℚ}
    {dip : ℤ} {cs : List ℚ} (h : buildRow ds vm sp maxd dip = some cs) :
    ∃ g, cs = rowCells dip maxd g := by
  unfold buildRow at h
  dsimp only at h
  repeat' split at h
  all_goals
    first
      | (injection h with h
         exact ⟨_, h.symm⟩)
      | (rcases Option.map_eq_some'.mp h with ⟨s, -, hcs⟩
         exact ⟨_, hcs.symm⟩)
      | (rcases Option.bind_eq_some.mp h with ⟨sbb, -, h2⟩
         rcases Option.map_eq_some'.mp h2 with ⟨sa, -, hcs⟩
         exact ⟨_, hcs.symm⟩)

/-- Characterisation of a successful `generate` call: the special cases
resolve, and row `k` is `buildRow` at integer level `tableStart + k`. -/
lemma generate_char (r : List Rec) (m : Mode) (s? e? : Option ℚ)
    (h : r.map Rec.dip ≠ []) :
    ∃ sp rows, specialCases (sortedList (r.map Rec.dip)) (valueMap m r) = some sp ∧
      generate r s? e? m = some (HEADERS, rows) ∧
      rows.length = tableRowCount (r.map Rec.dip) s? e? ∧
      ∀ k, k < tableRowCount (r.map Rec.dip) s? e? →
        ∃ cs, buildRow (sortedList (r.map Rec.dip)) (valueMap m r) sp
            (pyMax (r.map Rec.dip)) (tableStart (r.map Rec.dip) s? + (k : ℤ)) = some cs ∧
          rows.get? k = some (tableStart (r.map Rec.dip) s? + (k : ℤ), cs) := by
  obtain ⟨sp, hsp⟩ := @specialCases_isSome (sortedList (r.map Rec.dip)) (valueMap m r)
    (sortedList_pairwise (r.map Rec.dip))
  have hrow : ∀ k : ℕ, (buildRow (sortedList (r.map Rec.dip)) (valueMap m r) sp
      (pyMax (r.map Rec.dip)) (tableStart (r.map Rec.dip) s? + (k : ℤ))).isSome = true :=
    fun k => buildRow_isSome _ _ _ _ _ (sortedList_pairwise (r.map Rec.dip))
  have hsome : ∀ k ∈ List.range (tableRowCount (r.map Rec.dip) s? e?),
      ((buildRow (sortedList (r.map Rec.dip)) (valueMap m r) sp
        (pyMax (r.map Rec.dip)) (tableStart (r.map Rec.dip) s? + (k : ℤ))).map
        (fun cs => (tableStart (r.map Rec.dip) s? + (k : ℤ), cs))).isSome := by
    intro k _
    cases hb : buildRow (sortedList (r.map Rec.dip)) (valueMap m r) sp
        (pyMax (r.map Rec.dip)) (tableStart (r.map Rec.dip) s? + (k : ℤ)) with
    | none =>
      have h3 := hrow k
      rw [hb] at h3
      simp at h3
    | some cs => rfl
  obtain ⟨rows, hrows⟩ := Option.isSome_iff_exists.mp (mapOpt_isSome hsome)
  refine ⟨sp, rows, hsp, ?_, ?_, ?_⟩
  · unfold generate generateFrom
    rw [if_neg h]
    dsimp only
    rw [hsp]
    simp only [Option.some_bind]
    rw [hrows]
    rfl
  · rw [mapOpt_length hrows, List.length_range]
  · intro k hk
    have hget : (List.range (tableRowCount (r.map Rec.dip) s? e?)).get? k = some k :=
      List.get?_range hk
    have h2 := mapOpt_get? hrows hget
    cases hb : buildRow (sortedList (r.map Rec.dip)) (valueMap m r) sp
        (pyMax (r.map Rec.dip)) (tableStart (r.map Rec.dip) s? + (k : ℤ)) with
    | none =>
      have h3 := hrow k
      rw [hb] at h3
      simp at h3
    | some cs =>
      refine ⟨cs, rfl, ?_⟩
      rw [h2, hb]
      rfl

/-! ### Shared helpers for the claim theorems -/

lemma valueMapKG_last (pre post : List Rec) (d q : ℚ)
    (hpost : ∀ x ∈ post, x.dip ≠ d) :
    valueMapKG (pre ++ ⟨d, q⟩ :: post) d = q := by
  unfold valueMapKG
  rw [List.reverse_append, List.reverse_cons, List.append_assoc]
  rw [List.find?_append]
  have hnone : post.reverse.find? (fun r => decide (r.dip = d)) = none := by
    rw [List.find?_eq_none]
    intro x hx
    simp only [decide_eq_true_eq]
    exact hpost x (List.mem_reverse.mp hx)
  rw [hnone, List.singleton_append]
  have hfind : ((⟨d, q⟩ :: pre.reverse : List Rec).find? (fun r => decide (r.dip = d))) =
      some ⟨d, q⟩ := List.find?_cons_of_pos _ (by simp)
  simp [hfind]

/-! ### Claim theorems -/

/-- Claim C10: table generation never propagates an arithmetic fault.
`find_consistent_step` is embedded as failing (`none`) when its two levels
coincide (Python would raise `ZeroDivisionError`), and the failure is
propagated; this theorem shows `generate` nevertheless always succeeds —
after last-write-wins deduplication all calibration levels are distinct, so
every slope division is performed on a nonzero-width interval, for every
record list, explicit or default bounds, and mode. -/
theorem C10_no_zero_width_division (r : List Rec) (s? e? : Option ℚ) (m : Mode) :
    (generate r s? e? m).isSome = true := by
  by_cases h : r.map Rec.dip = []
  · unfold generate generateFrom
    rw [if_pos h]
    rfl
  · obtain ⟨sp, rows, -, hgen, -, -⟩ := generate_char r m s? e? h
    rw [hgen]
    rfl

/-- Claim C8: generating from the empty record list does not fail but
returns the fixed headers `["DIP","0",…,"9"]` with an empty row list, and
every successful generation carries exactly these 11 headers. -/
theorem C8_empty_and_fixed_headers (s? e? : Option ℚ) (m : Mode) :
    generate [] s? e? m = some (HEADERS, []) ∧
      ∀ (r : List Rec) (t : List String × List (ℤ × List ℚ)),
        generate r s? e? m = some t → t.1 = HEADERS := by
  constructor
  · rfl
  · intro r t hgen
    by_cases h : r.map Rec.dip = []
    · unfold generate generateFrom at hgen
      rw [if_pos h] at hgen
      injection hgen with hgen
      rw [← hgen]
    · obtain ⟨sp, rows, -, hgen2, -, -⟩ := generate_char r m s? e? h
      rw [hgen2] at hgen
      injection hgen with hgen
      rw [← hgen]

/-- Witness for C8 at a concrete input: the empty record list. -/
theorem C8_empty_and_fixed_headers_witness :
    generate [] none none Mode.kg = some (HEADERS, []) ∧
      (HEADERS, ([] : List (ℤ × List ℚ))).1 = HEADERS :=
  ⟨(C8_empty_and_fixed_headers none none Mode.kg).1,
   (C8_empty_and_fixed_headers none none Mode.kg).2 [] (HEADERS, [])
     (C8_empty_and_fixed_headers none none Mode.kg).1⟩

/-- Claim C7: when records share a level, the calibration map keeps only
the quantity of the last occurrence (last write wins), in both modes. -/
theorem C7_last_write_wins (pre post : List Rec) (d q : ℚ)
    (hpost : ∀ x ∈ post, x.dip ≠ d) :
    valueMapKG (pre ++ ⟨d, q⟩ :: post) d = q ∧
      valueMap Mode.kg (pre ++ ⟨d, q⟩ :: post) d = q ∧
      valueMap Mode.litre (pre ++ ⟨d, q⟩ :: post) d = toVolume q := by
  have h := valueMapKG_last pre post d q hpost
  exact ⟨h, h, by
    show toVolume (valueMapKG (pre ++ ⟨d, q⟩ :: post) d) = toVolume q
    rw [h]⟩

/-- Witness for C7: the spec's duplicate-level scenario
`[{level:2, q:50}, {level:2, q:60}]` retains only `q = 60`. -/
theorem C7_last_write_wins_witness :
    (∀ x ∈ ([] : List Rec), x.dip ≠ 2) ∧
      valueMapKG ([⟨2, 50⟩] ++ ⟨2, 60⟩ :: []) 2 = 60 :=
  ⟨by simp, (C7_last_write_wins [⟨2, 50⟩] [] 2 60 (by simp)).1⟩

/-- Claim C9: interior interpolation between two calibration points with
`v_low ≤ v_high` (stored at 2-decimal precision) produces a cell inside
`[v_low, v_high]` for every target level strictly between the two
levels. `interiorVal` is the cell formula of the interior-interpolation
branch and `s` the slope `find_consistent_step` returns for the pair. -/
theorem C9_interior_interpolation_bound (ld hd vl vh s : ℚ) (dip : ℤ) (i : ℕ)
    (hstep : find_consistent_step ld hd vl vh = some s)
    (hv : vl ≤ vh) (hvl : round2 vl = vl) (hvh : round2 vh = vh)
    (h1 : ld < (dip : ℚ) + (i : ℚ) / 10) (h2 : (dip : ℚ) + (i : ℚ) / 10 < hd) :
    vl ≤ interiorVal ld vl s dip i ∧ interiorVal ld vl s dip i ≤ vh := by
  have hld : ld < hd := lt_trans h1 h2
  have hne : hd - ld ≠ 0 := fun hc => absurd (sub_eq_zero.mp hc).symm (ne_of_lt hld)
  have hs : s = (vh - vl) / ((hd - ld) * 10) := by
    rw [find_consistent_step_isSome (ne_of_lt hld)] at hstep
    injection hstep with h
    exact h.symm
  have key : (vl + ((dip : ℚ) - ld) * (s * 10)) + (i : ℚ) * ((s * 10) / 10) =
      vl + (((dip : ℚ) + (i : ℚ) / 10) - ld) * ((vh - vl) / (hd - ld)) := by
    rw [hs]
    field_simp
    ring
  have hub : vl + (((dip : ℚ) + (i : ℚ) / 10) - ld) * ((vh - vl) / (hd - ld)) ≤ vh := by
    have h3 : (((dip : ℚ) + (i : ℚ) / 10) - ld) * (vh - vl) ≤ (hd - ld) * (vh - vl) :=
      mul_le_mul_of_nonneg_right (by linarith) (by linarith)
    have h4 : (((dip : ℚ) + (i : ℚ) / 10) - ld) * ((vh - vl) / (hd - ld)) ≤ vh - vl := by
      rw [mul_div_assoc'] at *
      rw [div_le_iff (by linarith : (0:ℚ) < hd - ld)]
      linarith
    linarith
  have hlb : vl ≤ vl + (((dip : ℚ) + (i : ℚ) / 10) - ld) * ((vh - vl) / (hd - ld)) := by
    have h3 : 0 ≤ (((dip : ℚ) + (i : ℚ) / 10) - ld) * ((vh - vl) / (hd - ld)) :=
      mul_nonneg (by linarith) (div_nonneg (by linarith) (by linarith))
    linarith
  unfold interiorVal
  rw [key]
  constructor
  · calc vl = round2 vl := hvl.symm
      _ ≤ round2 (vl + (((dip : ℚ) + (i : ℚ) / 10) - ld) * ((vh - vl) / (hd - ld))) :=
        round2_mono hlb
  · calc round2 (vl + (((dip : ℚ) + (i : ℚ) / 10) - ld) * ((vh - vl) / (hd - ld)))
        ≤ round2 vh := round2_mono hub
      _ = vh := hvh

/-- Witness for C9 at the concrete pair `(0, 0)`–`(1, 1)` and target
`0.5`: the interpolated cell lies in `[0, 1]`. -/
theorem C9_interior_interpolation_bound_witness :
    (0 : ℚ) ≤ interiorVal 0 0 (1/10) 0 5 ∧ interiorVal 0 0 (1/10) 0 5 ≤ 1 :=
  C9_interior_interpolation_bound 0 1 0 1 (1/10) 0 5
    (by norm_num [find_consistent_step]) (by norm_num)
    (by norm_num [round2, round_eq]) (by norm_num [round2, round_eq])
    (by norm_num) (by norm_num)

/-- Claim C5 (amended): building in volume mode equals building in mass
mode from records whose quantities were first converted via `toVolume`
(the `'litre'` value map rounds each stored quantity before any
interpolation; it is not obtained by converting finished mass cells). -/
theorem C5_volume_mode_is_record_conversion (r : List Rec) (s? e? : Option ℚ) :
    generate r s? e? Mode.litre =
      generate (r.map (fun x => ⟨x.dip, toVolume x.kg⟩)) s? e? Mode.kg := by
  unfold generate
  have hdips : (r.map (fun x => (⟨x.dip, toVolume x.kg⟩ : Rec))).map Rec.dip =
      r.map Rec.dip := by
    rw [List.map_map]
    rfl
  have hvm : valueMap Mode.litre r =
      valueMap Mode.kg (r.map (fun x => ⟨x.dip, toVolume x.kg⟩)) := by
    funext d
    show toVolume (valueMapKG r d) =
      valueMapKG (r.map (fun x => ⟨x.dip, toVolume x.kg⟩)) d
    unfold valueMapKG
    rw [← List.map_reverse, List.find?_map]
    cases hf : r.reverse.find? (fun rec => decide (rec.dip = d)) with
    | none =>
      have hcomp : r.reverse.find?
          ((fun rec => decide (rec.dip = d)) ∘ (fun x => (⟨x.dip, toVolume x.kg⟩ : Rec))) =
          none := hf
      rw [hcomp]
      show toVolume 0 = 0
      norm_num [toVolume, round2, round_eq]
    | some r0 =>
      have hcomp : r.reverse.find?
          ((fun rec => decide (rec.dip = d)) ∘ (fun x => (⟨x.dip, toVolume x.kg⟩ : Rec))) =
          some r0 := hf
      rw [hcomp]
      rfl
  rw [hdips, hvm]

/-- Claim C6 (counterexample): the conversion applied to a negative mass
returns the negative converted value, not `0.0` — there is no clamping. -/
theorem C6_counterexample :
    toVolume (-(10285/10000)) = -1 ∧
      valueMap Mode.litre [⟨1, -(10285/10000)⟩] 1 = -1 ∧ ((-1 : ℚ) ≠ 0) := by
  refine ⟨?_, ?_, by norm_num⟩
  · norm_num [toVolume, round2, round_eq]
  · show toVolume (valueMapKG [⟨1, -(10285/10000)⟩] 1) = -1
    norm_num [valueMapKG, List.find?, toVolume, round2, round_eq]

/-- Claim C6 (amended): for every numeric mass input — negative included —
the conversion returns `mass / 1.0285` rounded to two decimals (the
quantity the `'litre'` value map stores for the level's last record), and
a non-numeric input is coerced to `0.0` at the parse boundary, before the
conversion; negative inputs are not clamped. -/
theorem C6_conversion_no_clamping :
    (∀ (pre post : List Rec) (d q : ℚ), (∀ x ∈ post, x.dip ≠ d) →
        valueMap Mode.litre (pre ++ ⟨d, q⟩ :: post) d = round2 (q / 1.0285)) ∧
      (∀ q : ℚ, toVolume q = round2 (q / 1.0285)) ∧ parseOrZero none = 0 := by
  refine ⟨?_, fun q => rfl, rfl⟩
  intro pre post d q hpost
  show toVolume (valueMapKG (pre ++ ⟨d, q⟩ :: post) d) = round2 (q / 1.0285)
  rw [valueMapKG_last pre post d q hpost]
  rfl

/-- Witness for C6 at a concrete negative input: the stored litre quantity
for `mass = -1.0285` is `-1`, not `0`. -/
theorem C6_conversion_no_clamping_witness :
    (∀ x ∈ ([] : List Rec), x.dip ≠ 1) ∧
      valueMap Mode.litre ([] ++ ⟨1, -(10285/10000)⟩ :: []) 1 = -1 := by
  refine ⟨by simp, ?_⟩
  rw [C6_conversion_no_clamping.1 [] [] 1 (-(10285/10000)) (by simp)]
  norm_num [round2, round_eq]

/-- Claim C4 (amended): with default bounds the table's rows are ordered
by ascending integer level and are exactly the integers from the
truncation-toward-zero of the minimum calibrated level (`int(min)`, which
is the floor only for non-negative minima) up to the maximum calibrated
level, and no cell of any row is produced for an actual level
`integerLevel + tenth/10` above the maximum calibrated level. -/
theorem C4_row_range (r : List Rec) (m : Mode) (hne : r ≠ []) :
    ∃ rows, generate r none none m = some (HEADERS, rows) ∧
      (∀ d : ℤ, d ∈ rows.map Prod.fst ↔
        (tableStart (r.map Rec.dip) none ≤ d ∧ (d : ℚ) ≤ pyMax (r.map Rec.dip))) ∧
      List.Pairwise (· < ·) (rows.map Prod.fst) ∧
      (∀ p ∈ rows, ∀ i : ℕ, i < p.2.length →
        ((p.1 : ℚ) + (i : ℚ) / 10) ≤ pyMax (r.map Rec.dip)) := by
  have hmap : r.map Rec.dip ≠ [] := by
    intro hc
    exact hne (List.map_eq_nil.mp hc)
  obtain ⟨sp, rows, hsp, hgen, hlen, hget⟩ := generate_char r m none none hmap
  have hN : tableRowCount (r.map Rec.dip) none none =
      (⌊pyMax (r.map Rec.dip)⌋ - tableStart (r.map Rec.dip) none + 1).toNat := by
    unfold tableRowCount tableEnd
    rw [min_self]
  have hmapfst : rows.map Prod.fst =
      (List.range (tableRowCount (r.map Rec.dip) none none)).map
        (fun (k : ℕ) => tableStart (r.map Rec.dip) none + (k : ℤ)) := by
    apply List.ext_get?_iff.mpr
    intro n
    by_cases hn : n < tableRowCount (r.map Rec.dip) none none
    · obtain ⟨cs, -, hrown⟩ := hget n hn
      rw [List.get?_map, hrown, List.get?_map, List.get?_range hn]
      rfl
    · rw [List.get?_eq_none.mpr, List.get?_eq_none.mpr]
      · rw [List.length_map, List.length_range]
        omega
      · rw [List.length_map, hlen]
        omega
  refine ⟨rows, hgen, ?_, ?_, ?_⟩
  · intro d
    rw [hmapfst]
    constructor
    · intro hd
      rcases List.mem_map.mp hd with ⟨k, hk, hkd⟩
      have hk2 : k < tableRowCount (r.map Rec.dip) none none := List.mem_range.mp hk
      rw [hN] at hk2
      have hd2 : d ≤ ⌊pyMax (r.map Rec.dip)⌋ := by omega
      exact ⟨by omega, Int.le_floor.mp hd2⟩
    · rintro ⟨h1, h2⟩
      have h3 : d ≤ ⌊pyMax (r.map Rec.dip)⌋ := Int.le_floor.mpr h2
      refine List.mem_map.mpr
        ⟨(d - tableStart (r.map Rec.dip) none).toNat, List.mem_range.mpr ?_, ?_⟩
      · rw [hN]
        omega
      · show tableStart (r.map Rec.dip) none +
          ((d - tableStart (r.map Rec.dip) none).toNat : ℤ) = d
        omega
  · rw [hmapfst]
    refine List.Pairwise.map _ ?_ (List.pairwise_lt_range _)
    intro a b hab
    omega
  · intro p hp i hi
    rcases List.mem_iff_get?.mp hp with ⟨k, hk⟩
    have hklen : k < rows.length := by
      rcases List.get?_eq_some.mp hk with ⟨h, -⟩
      exact h
    rw [hlen] at hklen
    obtain ⟨cs, hbuild, hrowk⟩ := hget k hklen
    have hpeq : p = (tableStart (r.map Rec.dip) none + (k : ℤ), cs) :=
      Option.some.inj (hk.symm.trans hrowk)
    obtain ⟨g, hg⟩ := buildRow_shape hbuild
    obtain ⟨mm, -, hcells, hbound⟩ := rowCells_shape
      (tableStart (r.map Rec.dip) none + (k : ℤ)) (pyMax (r.map Rec.dip)) g
    rw [hpeq] at hi ⊢
    dsimp only at hi ⊢
    rw [hg, hcells, List.length_map, List.length_range] at hi
    exact hbound i hi

/-- Witness for C4 at the two-point scenario records: a row for integer
level 3 exists. -/
theorem C4_row_range_witness :
    ([⟨2, 100⟩, ⟨5, 130⟩] : List Rec) ≠ [] ∧
      ∃ rows, generate [⟨2, 100⟩, ⟨5, 130⟩] none none Mode.kg = some (HEADERS, rows) ∧
        ((3 : ℤ) ∈ rows.map Prod.fst) := by
  refine ⟨by simp, ?_⟩
  obtain ⟨rows, hgen, hmem, -, -⟩ := C4_row_range [⟨2, 100⟩, ⟨5, 130⟩] Mode.kg (by simp)
  refine ⟨rows, hgen, (hmem 3).mpr ⟨?_, ?_⟩⟩
  · show tableStart (([⟨2, 100⟩, ⟨5, 130⟩] : List Rec).map Rec.dip) none ≤ 3
    norm_num [tableStart, pyMin, ratTrunc, ratTrunc_intCast]
  · norm_num [pyMax]

/-- Claim C4 (counterexample): for the single record at level `-2.5` the
claim's row set is non-empty — the floor of the minimum is `-3` and
`-3 ≤ max` — yet the generated table has zero rows, because the code
truncates (`int(-2.5) = -2`) instead of flooring. -/
theorem C4_counterexample :
    generate [⟨-5/2, 10⟩] none none Mode.kg = some (HEADERS, []) ∧
      ⌊pyMin (([⟨-5/2, 10⟩] : List Rec).map Rec.dip)⌋ = -3 ∧
      ((-3 : ℤ) : ℚ) ≤ pyMax (([⟨-5/2, 10⟩] : List Rec).map Rec.dip) := by
  have htr : ratTrunc (-(5/2) : ℚ) = -2 := by
    rw [ratTrunc, if_neg (by norm_num), Int.ceil_neg]
    norm_num
  have htr2 : ratTrunc ((-2 : ℤ) : ℚ) = -2 := ratTrunc_intCast (-2)
  refine ⟨?_, by norm_num [pyMin], by norm_num [pyMax]⟩
  unfold generate generateFrom
  rw [if_neg (by simp : ¬ (([⟨-5/2, 10⟩] : List Rec).map Rec.dip = []))]
  norm_num [sortedList, List.dedup, List.insertionSort, pyMin, pyMax, tableStart,
    tableEnd, tableRowCount, htr, htr2, specialCases, specialEntries, specialLookup,
    mapOpt, valueMap, valueMapKG, HEADERS]

set_option maxHeartbeats 2000000 in
/-- Claim C3: the spec's two-point scenario: records
`[{level:2, q:100}, {level:5, q:130}]` in mass mode give a row at level 2
starting with `100`, values `110` at level `3.0` and `120` at level `4.0`
(growth `10` per whole level), and the level-5 row holds only `130`. -/
theorem C3_two_point_scenario :
    generate [⟨2, 100⟩, ⟨5, 130⟩] none none Mode.kg =
      some (HEADERS,
        [(2, [100, 101, 102, 103, 104, 105, 106, 107, 108, 109]),
         (3, [110, 111, 112, 113, 114, 115, 116, 117, 118, 119]),
         (4, [120, 121, 122, 123, 124, 125, 126, 127, 128, 129]),
         (5, [130])]) := by
  have hrange10 : List.range 10 = [0, 1, 2, 3, 4, 5, 6, 7, 8, 9] := rfl
  have hrange3 : List.range 3 = [0, 1, 2] := rfl
  have hrange4 : List.range 4 = [0, 1, 2, 3] := rfl
  unfold generate generateFrom
  rw [if_neg (by simp : ¬ (([⟨2, 100⟩, ⟨5, 130⟩] : List Rec).map Rec.dip = []))]
  norm_num [sortedList, List.dedup, List.insertionSort, List.orderedInsert, pyMin, pyMax,
    tableStart, tableEnd, tableRowCount, ratTrunc, specialCases, specialEntries,
    specialLookup, mapOpt, buildRow, rowCells, find_consistent_step, round2, round_eq,
    HEADERS, interiorVal, pyGet, valueMap, valueMapKG, toVolume, List.find?, List.filter,
    List.takeWhile, List.foldl, hrange10, hrange3, hrange4]

/-! Branch-value lemmas: the cell formula produced by particular
`buildRow` branches. -/

lemma tableStart_none (refDips : List ℚ) :
    tableStart refDips none = ratTrunc (pyMin refDips) := by
  unfold tableStart
  exact ratTrunc_intCast _

lemma tableRowCount_none (refDips : List ℚ) (s? : Option ℚ) :
    tableRowCount refDips s? none =
      (⌊pyMax refDips⌋ - tableStart refDips s? + 1).toNat := by
  unfold tableRowCount tableEnd
  rw [min_self]

/-- The exact-reference-point branch: the row starts at the stored value
and steps by a tenth of some per-level rate. -/
lemma buildRow_exact {ds : List ℚ} (vm : ℚ → ℚ) (sp : List (ℤ × ℚ)) (maxd : ℚ)
    {dip : ℤ} (hmem : (dip : ℚ) ∈ ds) :
    ∃ st, buildRow ds vm sp maxd dip =
      some (rowCells dip maxd (fun i => round2 (vm (dip : ℚ) + (i : ℚ) * (st / 10)))) := by
  unfold buildRow
  dsimp only
  rw [if_pos hmem]
  by_cases hh : ds.filter (fun d => decide ((dip : ℚ) < d)) ≠ []
  · rw [if_pos hh,
      find_consistent_step_isSome (ne_of_lt (of_decide_eq_true (pyMin_filter_spec hh).2))]
    exact ⟨_, rfl⟩
  · rw [if_neg hh]
    by_cases hl : ds.filter (fun d => decide (d < (dip : ℚ))) ≠ []
    · rw [if_pos hl,
        find_consistent_step_isSome (ne_of_lt (of_decide_eq_true (pyMax_filter_spec hl).2))]
      exact ⟨_, rfl⟩
    · rw [if_neg hl]
      exact ⟨_, rfl⟩

/-- The below-range branch: when the whole calibration set lies above the
row and the row is not a special case, the cells follow the raw slope of
the first interval (the two smallest calibrated levels), unclamped. -/
lemma buildRow_below {ds : List ℚ} {vm : ℚ → ℚ} {sp : List (ℤ × ℚ)} (maxd : ℚ)
    {dip : ℤ} {a b : ℚ} (hp : ds.Pairwise (· < ·))
    (hget0 : ds.get? 0 = some a) (hget1 : ds.get? 1 = some b)
    (hlt : ∀ d ∈ ds, (dip : ℚ) < d) (hsl : specialLookup sp dip = none) :
    ∃ s, find_consistent_step a b (vm a) (vm b) = some s ∧
      buildRow ds vm sp maxd dip =
        some (rowCells dip maxd (fun i =>
          round2 ((vm a - (a - (dip : ℚ)) * (s * 10)) + (i : ℚ) * ((s * 10) / 10)))) := by
  obtain ⟨u, rfl⟩ : ∃ u, ds = a :: b :: u := by
    cases ds with
    | nil => simp at hget0
    | cons a' t =>
      cases t with
      | nil => simp at hget1
      | cons b' u =>
        rw [List.get?_cons_zero] at hget0
        injection hget0 with hget0
        rw [List.get?_cons_succ, List.get?_cons_zero] at hget1
        injection hget1 with hget1
        exact ⟨u, by rw [hget0, hget1]⟩
  have hmem : (dip : ℚ) ∉ (a :: b :: u) := fun hc => absurd (hlt _ hc) (lt_irrefl _)
  have hab : a < b := (List.pairwise_cons.mp hp).1 b (List.mem_cons_self b u)
  unfold buildRow
  dsimp only
  rw [if_neg hmem, hsl]
  dsimp only
  have hlower : (a :: b :: u).filter (fun d => decide (d ≤ (dip : ℚ))) = [] := by
    rw [List.filter_eq_nil_iff]
    intro d hd
    simp only [decide_eq_true_eq]
    exact not_le.mpr (hlt d hd)
  have hhigher : (a :: b :: u).filter (fun d => decide ((dip : ℚ) < d)) = a :: b :: u := by
    rw [List.filter_eq_self]
    intro d hd
    exact decide_eq_true (hlt d hd)
  rw [hlower, hhigher]
  rw [if_neg (by simp)]
  rw [if_neg (by simp)]
  rw [if_pos (by simp : (a :: b :: u : List ℚ) ≠ [])]
  rw [if_pos (by simp : 2 ≤ (a :: b :: u : List ℚ).length)]
  have hmin : pyMin (a :: b :: u) = a := by
    refine le_antisymm (pyMin_le (List.mem_cons_self a _)) ?_
    refine sorted_get?_zero_le (hp.imp le_of_lt) (by rw [List.get?_cons_zero]) _ ?_
    exact pyMin_mem (by simp)
  rw [hmin]
  rw [List.indexOf_cons_self]
  rw [show ((0 : ℕ) : ℤ) + 1 = ((1 : ℕ) : ℤ) by norm_num]
  rw [pyGet_coe_nat]
  rw [List.get?_cons_succ, List.get?_cons_zero]
  simp only [Option.some_bind]
  rw [find_consistent_step_isSome (ne_of_lt hab)]
  exact ⟨_, rfl, rfl⟩

/-- The split-row branch: a special-case row containing a reference point
is generated in two pieces, and on or after the reference decimal the
cells are anchored at the reference value. -/
lemma buildRow_split {ds : List ℚ} {vm : ℚ → ℚ} {sp : List (ℤ × ℚ)} (maxd : ℚ)
    {dip : ℤ} {st ref : ℚ} {rest : List ℚ} (hp : ds.Pairwise (· < ·))
    (hmem : (dip : ℚ) ∉ ds) (hsl : specialLookup sp dip = some st)
    (hrefs : ds.filter (fun d => decide ((dip : ℚ) < d ∧ d < (dip : ℚ) + 1)) = ref :: rest) :
    ∃ sb bb sa, buildRow ds vm sp maxd dip =
      some (rowCells dip maxd (fun i =>
        if (i : ℤ) < ratTrunc ((ref - (dip : ℚ)) * 10) then round2 (bb + (i : ℚ) * sb)
        else round2 (vm ref + ((dip : ℚ) + (i : ℚ) / 10 - ref) * sa * 10))) := by
  have hrefmem : ref ∈ ds.filter (fun d => decide ((dip : ℚ) < d ∧ d < (dip : ℚ) + 1)) := by
    rw [hrefs]
    exact List.mem_cons_self _ _
  have href : (dip : ℚ) < ref ∧ ref < (dip : ℚ) + 1 :=
    of_decide_eq_true (List.mem_filter.mp hrefmem).2
  unfold buildRow
  dsimp only
  rw [if_neg hmem, hsl]
  dsimp only
  rw [hrefs]
  dsimp only
  by_cases hl : ds.filter (fun d => decide (d ≤ (dip : ℚ))) ≠ []
  · rw [if_pos hl]
    have hle : pyMax (ds.filter (fun d => decide (d ≤ (dip : ℚ)))) ≤ (dip : ℚ) :=
      of_decide_eq_true (pyMax_filter_spec hl).2
    rw [find_consistent_step_isSome (ne_of_lt (lt_of_le_of_lt hle href.1))]
    simp only [Option.map_some', Option.some_bind]
    by_cases hha : ds.filter (fun d => decide (ref < d)) ≠ []
    · rw [if_pos hha]
      have hlt2 : ref < pyMin (ds.filter (fun d => decide (ref < d))) :=
        of_decide_eq_true (pyMin_filter_spec hha).2
      rw [find_consistent_step_isSome (ne_of_lt hlt2)]
      exact ⟨_, _, _, rfl⟩
    · rw [if_neg hha]
      exact ⟨_, _, _, rfl⟩
  · rw [if_neg hl]
    simp only [Option.some_bind]
    by_cases hha : ds.filter (fun d => decide (ref < d)) ≠ []
    · rw [if_pos hha]
      have hlt2 : ref < pyMin (ds.filter (fun d => decide (ref < d))) :=
        of_decide_eq_true (pyMin_filter_spec hha).2
      rw [find_consistent_step_isSome (ne_of_lt hlt2)]
      exact ⟨_, _, _, rfl⟩
    · rw [if_neg hha]
      exact ⟨_, _, _, rfl⟩

lemma head?_eq_get?_zero {α : Type} (l : List α) : l.head? = l.get? 0 := by
  cases l <;> rfl

/-- Claim C2 (amended): when the table starts below the smallest
calibrated level, the below-range row's cells are computed with the raw
first-interval rate — `find_consistent_step` on the two smallest
calibrated levels, times 10 per level — with no clamping against the
average of the pairwise rates. -/
theorem C2_unclamped_first_interval_rate (r : List Rec) (m : Mode) (a b : ℚ)
    (hget0 : (sortedList (r.map Rec.dip)).get? 0 = some a)
    (hget1 : (sortedList (r.map Rec.dip)).get? 1 = some b)
    (hfrac : ((tableStart (r.map Rec.dip) none : ℤ) : ℚ) < a) :
    ∃ s rows, find_consistent_step a b (valueMap m r a) (valueMap m r b) = some s ∧
      generate r none none m = some (HEADERS, rows) ∧
      rows.head? = some (tableStart (r.map Rec.dip) none,
        rowCells (tableStart (r.map Rec.dip) none) (pyMax (r.map Rec.dip))
          (fun i => round2 ((valueMap m r a -
              (a - ((tableStart (r.map Rec.dip) none : ℤ) : ℚ)) * (s * 10)) +
            (i : ℚ) * ((s * 10) / 10)))) := by
  have hamem : a ∈ sortedList (r.map Rec.dip) := List.get?_mem hget0
  have hne : r.map Rec.dip ≠ [] := List.ne_nil_of_mem (mem_sortedList.mp hamem)
  have hmin : pyMin (r.map Rec.dip) = a := pyMin_eq_of_get?_zero hget0
  have hp := sortedList_pairwise (r.map Rec.dip)
  have hale : ∀ d ∈ sortedList (r.map Rec.dip), a ≤ d :=
    sorted_get?_zero_le (sortedList_sorted _) hget0
  have hlow : ∀ d ∈ sortedList (r.map Rec.dip),
      ((tableStart (r.map Rec.dip) none : ℤ) : ℚ) < d :=
    fun d hd => lt_of_lt_of_le hfrac (hale d hd)
  obtain ⟨sp, rows, hsp, hgen, hlen, hget⟩ := generate_char r m none none hne
  have hd0a : tableStart (r.map Rec.dip) none = ratTrunc a := by
    rw [tableStart_none, hmin]
  have hsl : specialLookup sp (tableStart (r.map Rec.dip) none) = none := by
    apply specialLookup_eq_none
    intro e he
    rw [hd0a]
    exact specialCases_keys hsp hale e he
  have hNpos : 0 < tableRowCount (r.map Rec.dip) none none := by
    rw [tableRowCount_none]
    have h1 : ((tableStart (r.map Rec.dip) none : ℤ) : ℚ) ≤ pyMax (r.map Rec.dip) :=
      le_of_lt (lt_of_lt_of_le hfrac (le_pyMax (mem_sortedList.mp hamem)))
    have h2 : tableStart (r.map Rec.dip) none ≤ ⌊pyMax (r.map Rec.dip)⌋ :=
      Int.le_floor.mpr h1
    omega
  obtain ⟨cs, hbuild, hrow0⟩ := hget 0 hNpos
  have hz : tableStart (r.map Rec.dip) none + ((0 : ℕ) : ℤ) =
      tableStart (r.map Rec.dip) none := by simp
  rw [hz] at hbuild hrow0
  obtain ⟨s, hscomp, hbuild2⟩ :=
    buildRow_below (pyMax (r.map Rec.dip)) hp hget0 hget1 hlow hsl
  have hcs := Option.some.inj (hbuild.symm.trans hbuild2)
  refine ⟨s, rows, hscomp, hgen, ?_⟩
  rw [head?_eq_get?_zero, hrow0, hcs]

/-- Witness for C2 at the records `[(3.5, 90), (4.5, 95), (10.5, 96)]`:
the below-range row exists and follows the first interval's raw rate. -/
theorem C2_unclamped_first_interval_rate_witness :
    (sortedList (([⟨7/2, 90⟩, ⟨9/2, 95⟩, ⟨21/2, 96⟩] : List Rec).map Rec.dip)).get? 0 =
        some (7/2) ∧
      ∃ s rows, find_consistent_step (7/2) (9/2)
          (valueMap Mode.kg [⟨7/2, 90⟩, ⟨9/2, 95⟩, ⟨21/2, 96⟩] (7/2))
          (valueMap Mode.kg [⟨7/2, 90⟩, ⟨9/2, 95⟩, ⟨21/2, 96⟩] (9/2)) = some s ∧
        generate [⟨7/2, 90⟩, ⟨9/2, 95⟩, ⟨21/2, 96⟩] none none Mode.kg =
          some (HEADERS, rows) ∧
        rows.head? = some (tableStart (([⟨7/2, 90⟩, ⟨9/2, 95⟩, ⟨21/2, 96⟩] : List Rec).map Rec.dip) none,
          rowCells (tableStart (([⟨7/2, 90⟩, ⟨9/2, 95⟩, ⟨21/2, 96⟩] : List Rec).map Rec.dip) none)
            (pyMax (([⟨7/2, 90⟩, ⟨9/2, 95⟩, ⟨21/2, 96⟩] : List Rec).map Rec.dip))
            (fun i => round2 ((valueMap Mode.kg [⟨7/2, 90⟩, ⟨9/2, 95⟩, ⟨21/2, 96⟩] (7/2) -
                (7/2 - ((tableStart (([⟨7/2, 90⟩, ⟨9/2, 95⟩, ⟨21/2, 96⟩] : List Rec).map Rec.dip) none : ℤ) : ℚ)) * (s * 10)) +
              (i : ℚ) * ((s * 10) / 10)))) := by
  have hsl : sortedList (([⟨7/2, 90⟩, ⟨9/2, 95⟩, ⟨21/2, 96⟩] : List Rec).map Rec.dip) =
      [7/2, 9/2, 21/2] := by
    norm_num [sortedList, List.dedup, List.insertionSort, List.orderedInsert]
  have hts : tableStart (([⟨7/2, 90⟩, ⟨9/2, 95⟩, ⟨21/2, 96⟩] : List Rec).map Rec.dip) none = 3 := by
    have h1 : ratTrunc (7/2 : ℚ) = 3 := by
      rw [ratTrunc, if_pos (by norm_num)]
      norm_num
    have h2 : ratTrunc (3 : ℚ) = 3 := by
      rw [ratTrunc, if_pos (by norm_num)]
      norm_num
    norm_num [tableStart, pyMin, ratTrunc_intCast, h1, h2]
  refine ⟨by rw [hsl]; rfl, ?_⟩
  exact C2_unclamped_first_interval_rate [⟨7/2, 90⟩, ⟨9/2, 95⟩, ⟨21/2, 96⟩] Mode.kg (7/2) (9/2)
    (by rw [hsl]; rfl) (by rw [hsl]; rfl) (by rw [hts]; norm_num)

/-- Claim C1 (amended): with quantities stored at 2-decimal precision,
(i) every calibrated integer level `d` yields the row at `d`, whose first
cell is exactly the stored quantity `set[d]`; and (ii) in the split-row
path, the cell at the row's first in-range reference point equals that
point's stored quantity whenever the reference lies on the tenth grid.
(At other non-integer calibrated levels the produced cell can differ from
the stored quantity, as the counterexample shows.) -/
theorem C1_exact_match_preservation :
    (∀ (r : List Rec) (m : Mode) (d : ℤ),
      (d : ℚ) ∈ sortedList (r.map Rec.dip) →
      round2 (valueMap m r (d : ℚ)) = valueMap m r (d : ℚ) →
      ∃ rows cells, generate r none none m = some (HEADERS, rows) ∧
        (d, cells) ∈ rows ∧ cells.head? = some (valueMap m r (d : ℚ))) ∧
    (∀ (r : List Rec) (m : Mode) (dip : ℤ) (sp : List (ℤ × ℚ)) (st ref : ℚ),
      specialCases (sortedList (r.map Rec.dip)) (valueMap m r) = some sp →
      (dip : ℚ) ∉ sortedList (r.map Rec.dip) →
      specialLookup sp dip = some st →
      ((sortedList (r.map Rec.dip)).filter
          (fun d => decide ((dip : ℚ) < d ∧ d < (dip : ℚ) + 1))).head? = some ref →
      ((ratTrunc ((ref - (dip : ℚ)) * 10) : ℤ) : ℚ) = (ref - (dip : ℚ)) * 10 →
      round2 (valueMap m r ref) = valueMap m r ref →
      tableStart (r.map Rec.dip) none ≤ dip →
      ∃ rows cells, generate r none none m = some (HEADERS, rows) ∧
        (dip, cells) ∈ rows ∧
        cells.get? (ratTrunc ((ref - (dip : ℚ)) * 10)).toNat =
          some (valueMap m r ref)) := by
  constructor
  · intro r m d hmem hfix
    have hdmem : (d : ℚ) ∈ r.map Rec.dip := mem_sortedList.mp hmem
    have hne : r.map Rec.dip ≠ [] := List.ne_nil_of_mem hdmem
    obtain ⟨sp, rows, hsp, hgen, hlen, hget⟩ := generate_char r m none none hne
    have hd0 : tableStart (r.map Rec.dip) none ≤ d := by
      rw [tableStart_none]
      exact ratTrunc_le_of_le_intCast (pyMin_le hdmem)
    have hdmax : d ≤ ⌊pyMax (r.map Rec.dip)⌋ := Int.le_floor.mpr (le_pyMax hdmem)
    have hk : (d - tableStart (r.map Rec.dip) none).toNat <
        tableRowCount (r.map Rec.dip) none none := by
      rw [tableRowCount_none]
      omega
    obtain ⟨cs, hbuild, hrowk⟩ := hget _ hk
    have hdk : tableStart (r.map Rec.dip) none +
        ((d - tableStart (r.map Rec.dip) none).toNat : ℤ) = d := by omega
    rw [hdk] at hbuild hrowk
    obtain ⟨st, hbuild2⟩ := buildRow_exact (valueMap m r) sp (pyMax (r.map Rec.dip)) hmem
    have hcs := Option.some.inj (hbuild.symm.trans hbuild2)
    refine ⟨rows, cs, hgen, List.get?_mem hrowk, ?_⟩
    rw [hcs, head?_eq_get?_zero]
    rw [rowCells_get? _ (by norm_num) ?_]
    · refine congrArg some ?_
      rw [show valueMap m r (d : ℚ) + ((0 : ℕ) : ℚ) * (st / 10) = valueMap m r (d : ℚ) by
        push_cast
        ring]
      exact hfix
    · intro i hi
      have hi0 : i = 0 := Nat.le_zero.mp hi
      subst hi0
      rw [show (d : ℚ) + ((0 : ℕ) : ℚ) / 10 = (d : ℚ) by push_cast; ring]
      exact le_pyMax hdmem
  · intro r m dip sp st ref hsp hnmem hslk hhead hgrid hfix hstart
    rcases hF : (sortedList (r.map Rec.dip)).filter
        (fun d => decide ((dip : ℚ) < d ∧ d < (dip : ℚ) + 1)) with _ | ⟨ref', rest⟩
    · rw [hF] at hhead
      simp at hhead
    · rw [hF] at hhead
      rw [List.head?_cons] at hhead
      injection hhead with hhead
      rw [hhead] at hF
      have hrefmem : ref ∈ (sortedList (r.map Rec.dip)).filter
          (fun d => decide ((dip : ℚ) < d ∧ d < (dip : ℚ) + 1)) := by
        rw [hF]
        exact List.mem_cons_self _ _
      have href : (dip : ℚ) < ref ∧ ref < (dip : ℚ) + 1 :=
        of_decide_eq_true (List.mem_filter.mp hrefmem).2
      have hrefds : ref ∈ sortedList (r.map Rec.dip) := (List.mem_filter.mp hrefmem).1
      have hrefdips : ref ∈ r.map Rec.dip := mem_sortedList.mp hrefds
      have hne : r.map Rec.dip ≠ [] := List.ne_nil_of_mem hrefdips
      obtain ⟨sp2, rows, hsp2, hgen, hlen, hget⟩ := generate_char r m none none hne
      have hspeq : sp2 = sp := Option.some.inj (hsp2.symm.trans hsp)
      subst hspeq
      have hdmax : dip ≤ ⌊pyMax (r.map Rec.dip)⌋ :=
        Int.le_floor.mpr (le_of_lt (lt_of_lt_of_le href.1 (le_pyMax hrefdips)))
      have hk : (dip - tableStart (r.map Rec.dip) none).toNat <
          tableRowCount (r.map Rec.dip) none none := by
        rw [tableRowCount_none]
        omega
      obtain ⟨cs, hbuild, hrowk⟩ := hget _ hk
      have hdk : tableStart (r.map Rec.dip) none +
          ((dip - tableStart (r.map Rec.dip) none).toNat : ℤ) = dip := by omega
      rw [hdk] at hbuild hrowk
      obtain ⟨sb, bb, sa, hbuild2⟩ := buildRow_split (pyMax (r.map Rec.dip))
        (sortedList_pairwise _) hnmem hslk hF
      have hcs := Option.some.inj (hbuild.symm.trans hbuild2)
      have h0 : 0 ≤ ratTrunc ((ref - (dip : ℚ)) * 10) :=
        ratTrunc_nonneg (by linarith [href.1])
      have h10 : ratTrunc ((ref - (dip : ℚ)) * 10) < 10 := by
        refine ratTrunc_lt_of_lt (by linarith [href.1]) ?_
        push_cast
        linarith [href.2]
      have hcast : (((ratTrunc ((ref - (dip : ℚ)) * 10)).toNat : ℕ) : ℚ) =
          (ref - (dip : ℚ)) * 10 := by
        have h1 : ((ratTrunc ((ref - (dip : ℚ)) * 10)).toNat : ℤ) =
            ratTrunc ((ref - (dip : ℚ)) * 10) := Int.toNat_of_nonneg h0
        calc (((ratTrunc ((ref - (dip : ℚ)) * 10)).toNat : ℕ) : ℚ)
            = (((ratTrunc ((ref - (dip : ℚ)) * 10)).toNat : ℤ) : ℚ) := by push_cast; ring
          _ = ((ratTrunc ((ref - (dip : ℚ)) * 10) : ℤ) : ℚ) := by rw [h1]
          _ = (ref - (dip : ℚ)) * 10 := hgrid
      refine ⟨rows, cs, hgen, List.get?_mem hrowk, ?_⟩
      rw [hcs]
      rw [rowCells_get? _ (by omega) ?_]
      · refine congrArg some ?_
        rw [if_neg (by rw [Int.toNat_of_nonneg h0]; omega)]
        rw [hcast]
        rw [show (dip : ℚ) + ((ref - (dip : ℚ)) * 10) / 10 - ref = 0 by ring]
        rw [show valueMap m r ref + 0 * sa * 10 = valueMap m r ref by ring]
        exact hfix
      · intro i hi
        have hle : ((i : ℕ) : ℚ) ≤ (((ratTrunc ((ref - (dip : ℚ)) * 10)).toNat : ℕ) : ℚ) :=
          Nat.cast_le.mpr hi
        rw [hcast] at hle
        have : (dip : ℚ) + (i : ℚ) / 10 ≤ ref := by linarith
        exact le_trans this (le_pyMax hrefdips)

set_option maxHeartbeats 2000000 in
/-- Claim C1 (counterexample): for records
`[{1, 0}, {2.3, 13}, {2.7, 100}]` the cell produced at calibrated level
`2.7` — the last cell of the level-2 row, at tenth 7 — is `17`, computed
by interpolating from the pair `(1, 2.3)`, while the stored quantity at
`2.7` is `100`: an exact-match lookup is not honoured at this calibrated
level. -/
theorem C1_counterexample :
    generate [⟨1, 0⟩, ⟨23/10, 13⟩, ⟨27/10, 100⟩] none none Mode.kg =
      some (HEADERS,
        [(1, [0, 1, 2, 3, 4, 5, 6, 7, 8, 9]),
         (2, [10, 11, 12, 13, 14, 15, 16, 17])]) ∧
      valueMapKG [⟨1, 0⟩, ⟨23/10, 13⟩, ⟨27/10, 100⟩] (27/10) = 100 ∧
      ((17 : ℚ) ≠ 100) := by
  have hrange10 : List.range 10 = [0, 1, 2, 3, 4, 5, 6, 7, 8, 9] := rfl
  have hrange2 : List.range 2 = [0, 1] := rfl
  have ht1 : ratTrunc (1 : ℚ) = 1 := by
    rw [ratTrunc, if_pos (by norm_num)]
    norm_num
  have ht2 : ratTrunc (23/10 : ℚ) = 2 := by
    rw [ratTrunc, if_pos (by norm_num)]
    norm_num
  have ht3 : ratTrunc (27/10 : ℚ) = 2 := by
    rw [ratTrunc, if_pos (by norm_num)]
    norm_num
  have ht4 : ratTrunc ((1 : ℤ) : ℚ) = 1 := ratTrunc_intCast 1
  refine ⟨?_, by norm_num [valueMapKG, List.find?], by norm_num⟩
  unfold generate generateFrom
  rw [if_neg (by simp : ¬ (([⟨1, 0⟩, ⟨23/10, 13⟩, ⟨27/10, 100⟩] : List Rec).map Rec.dip = []))]
  norm_num [sortedList, List.dedup, List.insertionSort, List.orderedInsert, pyMin, pyMax,
    tableStart, tableEnd, tableRowCount, ht1, ht2, ht3, ht4, specialCases, specialEntries,
    specialLookup, mapOpt, buildRow, rowCells, find_consistent_step, round2, round_eq,
    HEADERS, interiorVal, pyGet, valueMap, valueMapKG, toVolume, List.find?, List.filter,
    List.takeWhile, List.foldl, hrange10, hrange2]
  simp only [if_neg (by simp : ¬ (([23/10, 27/10] : List ℚ) = []))]
  norm_num [Option.map_some']

/-- Witness for C1: part (i) at the integer calibrated level 5 of the
two-point scenario, part (ii) at the split row 3 of records
`[{1, 10}, {3.5, 35}, {4.2, 42}]`, whose reference point `3.5` sits on
tenth 5. -/
theorem C1_exact_match_preservation_witness :
    (((5 : ℤ) : ℚ) ∈ sortedList (([⟨2, 100⟩, ⟨5, 130⟩] : List Rec).map Rec.dip) ∧
      (∃ rows cells, generate [⟨2, 100⟩, ⟨5, 130⟩] none none Mode.kg = some (HEADERS, rows) ∧
        ((5 : ℤ), cells) ∈ rows ∧
        cells.head? = some (valueMap Mode.kg [⟨2, 100⟩, ⟨5, 130⟩] ((5 : ℤ) : ℚ)))) ∧
    (∃ rows cells,
      generate [⟨1, 10⟩, ⟨7/2, 35⟩, ⟨21/5, 42⟩] none none Mode.kg = some (HEADERS, rows) ∧
      ((3 : ℤ), cells) ∈ rows ∧
      cells.get? (ratTrunc ((7/2 - ((3 : ℤ) : ℚ)) * 10)).toNat =
        some (valueMap Mode.kg [⟨1, 10⟩, ⟨7/2, 35⟩, ⟨21/5, 42⟩] (7/2))) := by
  have hmem5 : ((5 : ℤ) : ℚ) ∈ sortedList (([⟨2, 100⟩, ⟨5, 130⟩] : List Rec).map Rec.dip) := by
    have h : sortedList (([⟨2, 100⟩, ⟨5, 130⟩] : List Rec).map Rec.dip) = [2, 5] := by
      norm_num [sortedList, List.dedup, List.insertionSort, List.orderedInsert]
    rw [h]
    norm_num
  have hfix5 : round2 (valueMap Mode.kg [⟨2, 100⟩, ⟨5, 130⟩] ((5 : ℤ) : ℚ)) =
      valueMap Mode.kg [⟨2, 100⟩, ⟨5, 130⟩] ((5 : ℤ) : ℚ) := by
    have h : valueMap Mode.kg [⟨2, 100⟩, ⟨5, 130⟩] ((5 : ℤ) : ℚ) = 130 := by
      norm_num [valueMap, valueMapKG, List.find?]
    rw [h]
    norm_num [round2, round_eq]
  have hdsB : sortedList (([⟨1, 10⟩, ⟨7/2, 35⟩, ⟨21/5, 42⟩] : List Rec).map Rec.dip) =
      [1, 7/2, 21/5] := by
    norm_num [sortedList, List.dedup, List.insertionSort, List.orderedInsert]
  have ht1 : ratTrunc (1 : ℚ) = 1 := by
    rw [ratTrunc, if_pos (by norm_num)]
    norm_num
  have ht2 : ratTrunc (7/2 : ℚ) = 3 := by
    rw [ratTrunc, if_pos (by norm_num)]
    norm_num
  have ht3 : ratTrunc (21/5 : ℚ) = 4 := by
    rw [ratTrunc, if_pos (by norm_num)]
    norm_num
  have ht4 : ratTrunc ((1 : ℤ) : ℚ) = 1 := ratTrunc_intCast 1
  have hrange2 : List.range 2 = [0, 1] := rfl
  have hspB : specialCases (sortedList (([⟨1, 10⟩, ⟨7/2, 35⟩, ⟨21/5, 42⟩] : List Rec).map Rec.dip))
      (valueMap Mode.kg [⟨1, 10⟩, ⟨7/2, 35⟩, ⟨21/5, 42⟩]) = some [(2, 1), (3, 1)] := by
    have htn : ((2 : ℤ)).toNat = 2 := rfl
    rw [hdsB]
    norm_num [specialCases, specialEntries, mapOpt, find_consistent_step, valueMap,
      valueMapKG, List.find?, ht1, ht2, ht3, htn, hrange2]
  have hgrid : ((ratTrunc ((7/2 - ((3 : ℤ) : ℚ)) * 10) : ℤ) : ℚ) = (7/2 - ((3 : ℤ) : ℚ)) * 10 := by
    have h : (7/2 - ((3 : ℤ) : ℚ)) * 10 = 5 := by push_cast; ring
    rw [h]
    have h5 : ratTrunc (5 : ℚ) = 5 := by
      rw [ratTrunc, if_pos (by norm_num)]
      norm_num
    rw [h5]
    norm_num
  refine ⟨⟨hmem5, C1_exact_match_preservation.1 [⟨2, 100⟩, ⟨5, 130⟩] Mode.kg 5 hmem5 hfix5⟩, ?_⟩
  refine C1_exact_match_preservation.2 [⟨1, 10⟩, ⟨7/2, 35⟩, ⟨21/5, 42⟩] Mode.kg 3
    [(2, 1), (3, 1)] 1 (7/2) hspB ?_ ?_ ?_ hgrid ?_ ?_
  · rw [hdsB]
    norm_num
  · norm_num [specialLookup, List.find?]
  · rw [hdsB]
    norm_num [List.filter]
  · have h : valueMap Mode.kg [⟨1, 10⟩, ⟨7/2, 35⟩, ⟨21/5, 42⟩] (7/2) = 35 := by
      norm_num [valueMap, valueMapKG, List.find?]
    rw [h]
    norm_num [round2, round_eq]
  · show tableStart (([⟨1, 10⟩, ⟨7/2, 35⟩, ⟨21/5, 42⟩] : List Rec).map Rec.dip) none ≤ 3
    norm_num [tableStart, pyMin, ht1, ht4]

set_option maxHeartbeats 1000000 in
/-- Claim C2 (counterexample): for records `[(3.5,90),(4.5,95),(10.5,96)]`
the below-range row 3 starts `87.5, 88, …` — an effective rate of
`(88 − 87.5)·10 = 5` per whole level — while the claim's clamp interval
around the average rate `avg = 31/12` is `[avg/2, 3·avg/2] = [31/24, 31/8]`,
which `5` exceeds: the code does not clamp the extrapolation rate. -/
theorem C2_counterexample :
    ∃ rows cs,
      generate [⟨7/2, 90⟩, ⟨9/2, 95⟩, ⟨21/2, 96⟩] none none Mode.kg =
        some (HEADERS, rows) ∧
      rows.head? = some (3, cs) ∧
      cs.get? 0 = some (175/2) ∧ cs.get? 1 = some 88 ∧
      specAvgRate [⟨7/2, 90⟩, ⟨9/2, 95⟩, ⟨21/2, 96⟩] Mode.kg = 31/12 ∧
      ((88 : ℚ) - 175/2) * 10 = 5 ∧ (0 : ℚ) ≤ 31/12 ∧
      ¬((1/2) * (31/12) ≤ (5 : ℚ) ∧ (5 : ℚ) ≤ (3/2) * (31/12)) := by
  have hds : sortedList (([⟨7/2, 90⟩, ⟨9/2, 95⟩, ⟨21/2, 96⟩] : List Rec).map Rec.dip) =
      [7/2, 9/2, 21/2] := by
    norm_num [sortedList, List.dedup, List.insertionSort, List.orderedInsert]
  have ht72 : ratTrunc (7/2 : ℚ) = 3 := by
    rw [ratTrunc, if_pos (by norm_num)]
    norm_num
  have ht92 : ratTrunc (9/2 : ℚ) = 4 := by
    rw [ratTrunc, if_pos (by norm_num)]
    norm_num
  have ht212 : ratTrunc (21/2 : ℚ) = 10 := by
    rw [ratTrunc, if_pos (by norm_num)]
    norm_num
  have ht3q : ratTrunc (3 : ℚ) = 3 := by
    rw [ratTrunc, if_pos (by norm_num)]
    norm_num
  have hts : tableStart (([⟨7/2, 90⟩, ⟨9/2, 95⟩, ⟨21/2, 96⟩] : List Rec).map Rec.dip) none = 3 := by
    norm_num [tableStart, pyMin, ratTrunc_intCast, ht72, ht3q]
  have hmax : pyMax (([⟨7/2, 90⟩, ⟨9/2, 95⟩, ⟨21/2, 96⟩] : List Rec).map Rec.dip) = 21/2 := by
    norm_num [pyMax]
  have hrange6 : List.range 6 = [0, 1, 2, 3, 4, 5] := rfl
  have htn6 : ((6 : ℤ)).toNat = 6 := rfl
  have hspev : specialCases [7/2, 9/2, 21/2]
      (valueMap Mode.kg [⟨7/2, 90⟩, ⟨9/2, 95⟩, ⟨21/2, 96⟩]) =
      some [(5, 1/60), (6, 1/60), (7, 1/60), (8, 1/60), (9, 1/60), (10, 1/60)] := by
    norm_num [specialCases, specialEntries, mapOpt, find_consistent_step, valueMap,
      valueMapKG, List.find?, ht72, ht92, ht212, htn6, hrange6]
  obtain ⟨sp, rows, hsp, hgen, hlen, hget⟩ :=
    generate_char [⟨7/2, 90⟩, ⟨9/2, 95⟩, ⟨21/2, 96⟩] Mode.kg none none (by simp)
  rw [hds] at hsp hget
  have hspv : sp = [(5, 1/60), (6, 1/60), (7, 1/60), (8, 1/60), (9, 1/60), (10, 1/60)] :=
    Option.some.inj (hsp.symm.trans hspev)
  rw [hspv] at hget
  have hNr : tableRowCount (([⟨7/2, 90⟩, ⟨9/2, 95⟩, ⟨21/2, 96⟩] : List Rec).map Rec.dip)
      none none = 8 := by
    have htn8 : ((8 : ℤ)).toNat = 8 := rfl
    rw [tableRowCount_none, hts, hmax]
    norm_num [htn8]
  obtain ⟨cs, hbuild, hrow0⟩ := hget 0 (by rw [hNr]; norm_num)
  rw [hts] at hbuild hrow0
  rw [show (3 : ℤ) + ((0 : ℕ) : ℤ) = 3 by norm_num] at hbuild hrow0
  rw [hmax] at hbuild
  have htn1 : ((0 : ℕ) : ℤ).toNat = 0 := rfl
  have htn2 : ((1 : ℤ)).toNat = 1 := rfl
  norm_num [buildRow, specialLookup, find_consistent_step, pyGet, pyMin, pyMax,
    valueMap, valueMapKG, List.find?, List.filter, List.foldl, List.indexOf_cons_self,
    htn2] at hbuild
  rw [if_neg (by simp : ¬ (([7/2, 9/2, 21/2] : List ℚ) = []))] at hbuild
  have hcs := (Option.some.inj hbuild).symm
  refine ⟨rows, cs, hgen, ?_, ?_, ?_, ?_, by norm_num, by norm_num, by norm_num⟩
  · rw [head?_eq_get?_zero, hrow0]
  · rw [hcs, rowCells_get? _ (by norm_num) ?_]
    · norm_num [round2, round_eq]
    · intro i hi
      have hi0 : i = 0 := Nat.le_zero.mp hi
      subst hi0
      norm_num
  · rw [hcs, rowCells_get? _ (by norm_num) ?_]
    · norm_num [round2, round_eq]
    · intro i hi
      interval_cases i <;> norm_num
  · have hds2 : sortedList ([7/2, 9/2, 21/2] : List ℚ) = [7/2, 9/2, 21/2] := by
      norm_num [sortedList, List.dedup, List.insertionSort, List.orderedInsert]
    norm_num [specAvgRate, hds, hds2, valueMap, valueMapKG, List.find?, List.zip,
      List.zipWith]

set_option maxHeartbeats 1000000 in
/-- Claim C5 (counterexample): for records `[(0,0), (10,1)]` the table
cell at level `1.7` is `0.16` in volume mode but `0.17` in mass mode, and
`toVolume 0.17 = 0.17`: converting the mass-mode cell does not reproduce
the volume-mode cell, because volume mode rounds the stored quantities
before interpolating. -/
theorem C5_counterexample :
    ((generate [⟨0, 0⟩, ⟨10, 1⟩] none none Mode.litre).bind
        (fun t => (t.2.get? 1).bind (fun row => row.2.get? 7))) = some (16/100) ∧
      ((generate [⟨0, 0⟩, ⟨10, 1⟩] none none Mode.kg).bind
        (fun t => (t.2.get? 1).bind (fun row => row.2.get? 7))) = some (17/100) ∧
      toVolume (17/100) = 17/100 ∧ ((16/100 : ℚ) ≠ toVolume (17/100)) := by
  have hds : sortedList (([⟨0, 0⟩, ⟨10, 1⟩] : List Rec).map Rec.dip) = [0, 10] := by
    norm_num [sortedList, List.dedup, List.insertionSort, List.orderedInsert]
  have ht0 : ratTrunc (0 : ℚ) = 0 := by
    rw [ratTrunc, if_pos (by norm_num)]
    norm_num
  have ht10 : ratTrunc (10 : ℚ) = 10 := by
    rw [ratTrunc, if_pos (by norm_num)]
    norm_num
  have hts : tableStart (([⟨0, 0⟩, ⟨10, 1⟩] : List Rec).map Rec.dip) none = 0 := by
    norm_num [tableStart, pyMin, ht0]
  have hmax : pyMax (([⟨0, 0⟩, ⟨10, 1⟩] : List Rec).map Rec.dip) = 10 := by
    norm_num [pyMax]
  have hrange10 : List.range 10 = [0, 1, 2, 3, 4, 5, 6, 7, 8, 9] := rfl
  have htn10 : ((10 : ℤ)).toNat = 10 := rfl
  have htn11 : ((11 : ℤ)).toNat = 11 := rfl
  have hNr : tableRowCount (([⟨0, 0⟩, ⟨10, 1⟩] : List Rec).map Rec.dip) none none = 11 := by
    rw [tableRowCount_none, hts, hmax]
    norm_num [htn11]
  have hvol : toVolume (1 : ℚ) = 97/100 := by
    norm_num [toVolume, round2, round_eq]
  have hcond : ∀ i : ℕ, i ≤ 7 → ((1 : ℤ) : ℚ) + (i : ℚ) / 10 ≤ 10 := by
    intro i hi
    have h1 : ((i : ℕ) : ℚ) ≤ 7 := by exact_mod_cast hi
    push_cast
    linarith
  refine ⟨?_, ?_, by norm_num [toVolume, round2, round_eq],
    by norm_num [toVolume, round2, round_eq]⟩
  · -- volume mode
    have hspev : specialCases [0, 10] (valueMap Mode.litre [⟨0, 0⟩, ⟨10, 1⟩]) =
        some [(1, 97/10000), (2, 97/10000), (3, 97/10000), (4, 97/10000), (5, 97/10000),
          (6, 97/10000), (7, 97/10000), (8, 97/10000), (9, 97/10000), (10, 97/10000)] := by
      norm_num [specialCases, specialEntries, mapOpt, find_consistent_step, valueMap,
        valueMapKG, toVolume, round2, round_eq, List.find?, ht0, ht10, htn10, hrange10]
    obtain ⟨sp, rows, hsp, hgen, hlen, hget⟩ :=
      generate_char [⟨0, 0⟩, ⟨10, 1⟩] Mode.litre none none (by simp)
    rw [hds] at hsp hget
    have hspv := Option.some.inj (hsp.symm.trans hspev)
    rw [hspv] at hget
    obtain ⟨cs, hbuild, hrow1⟩ := hget 1 (by rw [hNr]; norm_num)
    rw [hts] at hbuild hrow1
    rw [show (0 : ℤ) + ((1 : ℕ) : ℤ) = 1 by norm_num] at hbuild hrow1
    rw [hmax] at hbuild
    norm_num [buildRow, specialLookup, find_consistent_step, pyGet, pyMin, pyMax,
      valueMap, valueMapKG, toVolume, round2, round_eq, List.find?, List.filter,
      List.foldl] at hbuild
    have hcs := hbuild.symm
    rw [hgen]
    simp only [Option.some_bind]
    rw [hrow1]
    simp only [Option.some_bind]
    rw [hcs, rowCells_get? _ (by norm_num) hcond]
    norm_num [round2, round_eq]
  · -- mass mode
    have hspev : specialCases [0, 10] (valueMap Mode.kg [⟨0, 0⟩, ⟨10, 1⟩]) =
        some [(1, 1/100), (2, 1/100), (3, 1/100), (4, 1/100), (5, 1/100),
          (6, 1/100), (7, 1/100), (8, 1/100), (9, 1/100), (10, 1/100)] := by
      norm_num [specialCases, specialEntries, mapOpt, find_consistent_step, valueMap,
        valueMapKG, List.find?, ht0, ht10, htn10, hrange10]
    obtain ⟨sp, rows, hsp, hgen, hlen, hget⟩ :=
      generate_char [⟨0, 0⟩, ⟨10, 1⟩] Mode.kg none none (by simp)
    rw [hds] at hsp hget
    have hspv := Option.some.inj (hsp.symm.trans hspev)
    rw [hspv] at hget
    obtain ⟨cs, hbuild, hrow1⟩ := hget 1 (by rw [hNr]; norm_num)
    rw [hts] at hbuild hrow1
    rw [show (0 : ℤ) + ((1 : ℕ) : ℤ) = 1 by norm_num] at hbuild hrow1
    rw [hmax] at hbuild
    norm_num [buildRow, specialLookup, find_consistent_step, pyGet, pyMin, pyMax,
      valueMap, valueMapKG, List.find?, List.filter, List.foldl] at hbuild
    have hcs := hbuild.symm
    rw [hgen]
    simp only [Option.some_bind]
    rw [hrow1]
    simp only [Option.some_bind]
    rw [hcs, rowCells_get? _ (by norm_num) hcond]
    norm_num [round2, round_eq]

end DipTable
